import Mathlib

/-!
The polling service of noah-mqtt (`internal/polling/service.go`).

A shallow embedding of the polling service and the properties of its topic
naming, device enumeration and poll cycle.

The service talks to three collaborators that live outside `service.go`:

* the Growatt client (`growatt.Client`), modelled as a record of state-passing
  functions over an arbitrary client state `σ`, so that a call may answer
  differently each time it is made;
* the Home Assistant service (`SetDevices`) and the MQTT client (`Publish`),
  whose calls are recorded as events of a trace;
* the payload transforms followed by `json.Marshal`, taken as parameters.

Every function of the service returns the events it produced, in order. A
successful answer of a collaborator is taken to be a well-formed value (no nil
pointer behind a nil error).
-/

namespace NoahMqtt

/-! ## Go values -/

/-- A Go `error` value, identified by its `Error()` text. -/
structure GoError where
  Error : String
deriving DecidableEq, Repr

/-- `time.Second` in nanoseconds, the unit of `time.Duration`. -/
def Second : Int := 1000000000

/-! ## The fragment of `fmt.Sprintf` used by the service -/

namespace fmt

/-- An operand of `Sprintf`: the service only passes strings and ints. -/
inductive Arg where
  | str (s : String)
  | int (i : Int)
deriving DecidableEq, Repr

/-- The `%d` verb on an int: a minus sign for negatives, then the base-10
digits of the magnitude, most significant first. -/
def fmtInteger : Int → List Char
  | Int.ofNat m => Nat.toDigits 10 m
  | Int.negSucc m => '-' :: Nat.toDigits 10 (m + 1)

/-- Scanning of the format: plain characters are copied, `%%` writes a percent
sign, `%s` writes a string operand unchanged, `%d` writes an int operand in
base 10. Anything else (another verb, flags, a wrong operand type, missing or
extra operands) lies outside the fragment and gives `none`. -/
def doPrintf : List Char → List Arg → Option (List Char)
  | [], [] => some []
  | [], _ :: _ => none
  | c :: rest, args =>
    if c = '%' then
      match rest, args with
      | verb :: rest', args =>
        if verb = '%' then (doPrintf rest' args).map (fun out => '%' :: out)
        else match args with
          | Arg.str s :: args' =>
            if verb = 's' then (doPrintf rest' args').map (fun out => s.data ++ out)
            else none
          | Arg.int i :: args' =>
            if verb = 'd' then (doPrintf rest' args').map (fun out => fmtInteger i ++ out)
            else none
          | [] => none
      | [], _ => none
    else (doPrintf rest args).map (fun out => c :: out)

/-- `fmt.Sprintf(format, args...)` on the fragment; the empty string stands for
a format outside the fragment (no call of the service is). -/
def Sprintf (format : String) (args : List Arg) : String :=
  match doPrintf format.data args with
  | some out => String.mk out
  | none => ""

end fmt

/-! ## Types of the `growatt` package (the fields `service.go` reads) -/

namespace growatt

structure Plant where
  PlantID : String
deriving DecidableEq, Repr

structure PlantListBack where
  Data : List Plant
deriving DecidableEq, Repr

structure PlantList where
  Back : PlantListBack
deriving DecidableEq, Repr

structure NoahPlantInfoObj where
  DeviceSn : String
deriving DecidableEq, Repr

structure NoahPlantInfo where
  Obj : NoahPlantInfoObj
deriving DecidableEq, Repr

structure NoahInfoObjNoah where
  BatSns : List String
  Alias : String
  Model : String
  Version : String
deriving DecidableEq, Repr

structure NoahInfoObj where
  Noah : NoahInfoObjNoah
deriving DecidableEq, Repr

structure NoahInfo where
  Obj : NoahInfoObj
deriving DecidableEq, Repr

/-- The battery response: `Obj.Batter` is the slice of battery entries, of an
entry type `B` whose fields only the payload transform reads. -/
structure BatteryInfoObj (B : Type) where
  Batter : List B
deriving DecidableEq, Repr

structure BatteryInfo (B : Type) where
  Obj : BatteryInfoObj B
deriving DecidableEq, Repr

/-- The client of the cloud account, state-passing over its own state `σ`:
each operation takes the state before the call and gives its answer with the
state after it. `S` is the type of a device-status response, `B` of a battery
entry. `Login` gives the error, if any. -/
structure Client (σ S B : Type) where
  Login : σ → Option GoError × σ
  GetPlantList : σ → Except GoError PlantList × σ
  GetNoahPlantInfo : String → σ → Except GoError NoahPlantInfo × σ
  GetNoahInfo : String → σ → Except GoError NoahInfo × σ
  GetNoahStatus : String → σ → Except GoError S × σ
  GetBatteryData : String → σ → Except GoError (BatteryInfo B) × σ

end growatt

/-! ## Types of the `homeassistant` package -/

namespace homeassistant

structure BatteryInfo where
  Alias : String
  StateTopic : String
deriving DecidableEq, Repr

structure DeviceInfo where
  SerialNumber : String
  Alias : String
  StateTopic : String
  Batteries : List BatteryInfo
  Model : String
  Version : String
deriving DecidableEq, Repr

end homeassistant

/-! ## Events -/

/-- An attribute of a log record (`slog.String`, `slog.Int`). -/
inductive Attr where
  | String (key : String) (value : String)
  | Int (key : String) (value : Int)
deriving DecidableEq, Repr

inductive Level where
  | Debug
  | Info
  | Error
deriving DecidableEq, Repr

/-- The calls of the Growatt client. -/
inductive Call where
  | Login
  | GetPlantList
  | GetNoahPlantInfo (plantId : String)
  | GetNoahInfo (serialNumber : String)
  | GetNoahStatus (serialNumber : String)
  | GetBatteryData (serialNumber : String)
deriving DecidableEq, Repr

/-- What the service does to the outside, in the order it does it. -/
inductive Event where
  /-- A call of the Growatt client. -/
  | call (c : Call)
  /-- A record written with `slog`. -/
  | log (level : Level) (msg : String) (attrs : List Attr)
  /-- The call `HaClient.SetDevices(devices)`. -/
  | SetDevices (devices : List homeassistant.DeviceInfo)
  /-- The call `MqttClient.Publish(topic, qos, retained, payload)`. -/
  | Publish (topic : String) (qos : Nat) (retained : Bool) (payload : String)
  /-- A wait `<-time.After(d)`. -/
  | After (d : Int)
  /-- The statement `go s.poll()`. -/
  | goPoll
deriving DecidableEq, Repr

/-- How a function of the service ends: it returns, it panics with an error, or
it ends the process with `os.Exit(code)`. -/
inductive Outcome (α : Type) where
  | ret (a : α)
  | panic (err : GoError)
  | exit (code : Int)
deriving DecidableEq, Repr

/-- The result of running a function: the events it produced, in order, the
way it ended once they had all happened, and the client state it left. -/
structure Run (σ α : Type) where
  out : Outcome α
  gw : σ
  trace : List Event

/-- The result of running a piece of code that always falls through to the
next statement: the value it computed, the client state it left and the events
it produced. -/
structure Step (σ α : Type) where
  val : α
  gw : σ
  trace : List Event

/-! ## The service -/

/-- The `Options` of the service. `HaClient` and `MqttClient` have no field:
their calls are events. -/
structure Options (σ S B : Type) where
  GrowattClient : growatt.Client σ S B
  PollingInterval : Int
  TopicPrefix : String

structure Service (σ S B : Type) where
  options : Options σ S B
  serialNumbers : List String

/-- `NewService`. -/
def NewService {σ S B : Type} (options : Options σ S B) : Service σ S B :=
  { options := options, serialNumbers := [] }

/-- The payload transforms followed by `json.Marshal`, each giving the bytes of
the message body as a string or the marshalling error:
`json.Marshal(noahStatusToPayload(data))` and
`json.Marshal(noahBatteryDetailsToBatteryPayload(&bat))`. -/
structure Marshal (S B : Type) where
  status : S → Except GoError String
  battery : B → Except GoError String

section
variable {σ S B : Type}

def Service.deviceStateTopic (s : Service σ S B) (serialNumber : String) : String :=
  fmt.Sprintf "%s/%s" [fmt.Arg.str s.options.TopicPrefix, fmt.Arg.str serialNumber]

def Service.stateTopicBattery (s : Service σ S B) (serialNumber : String) (index : Int) : String :=
  fmt.Sprintf "%s/%s/BAT%d"
    [fmt.Arg.str s.options.TopicPrefix, fmt.Arg.str serialNumber, fmt.Arg.int index]


/-- The loop over the plants in `fetchNoahSerialNumbers`: the plants still to
visit, the client state, and `serialNumbers` as appended to so far. -/
def Service.fetchPlants (s : Service σ S B) :
    List growatt.Plant → σ → List String → Step σ (List String)
  | [], w, serialNumbers => ⟨serialNumbers, w, []⟩
  | plant :: rest, w, serialNumbers =>
    let r := s.options.GrowattClient.GetNoahPlantInfo plant.PlantID w
    match r.1 with
    | Except.error err =>
      let k := s.fetchPlants rest r.2 serialNumbers
      ⟨k.val, k.gw,
        [Event.log Level.Info "fetch plant details" [Attr.String "plantId" plant.PlantID],
         Event.call (Call.GetNoahPlantInfo plant.PlantID),
         Event.log Level.Error "could not get plant info"
           [Attr.String "plantId" plant.PlantID, Attr.String "error" err.Error]] ++ k.trace⟩
    | Except.ok info =>
      if info.Obj.DeviceSn.utf8ByteSize > 0 then
        let k := s.fetchPlants rest r.2 (serialNumbers ++ [info.Obj.DeviceSn])
        ⟨k.val, k.gw,
          [Event.log Level.Info "fetch plant details" [Attr.String "plantId" plant.PlantID],
           Event.call (Call.GetNoahPlantInfo plant.PlantID),
           Event.log Level.Info "found device sn"
             [Attr.String "deviceSn" info.Obj.DeviceSn, Attr.String "plantId" plant.PlantID,
              Attr.String "topic" (s.deviceStateTopic info.Obj.DeviceSn)]] ++ k.trace⟩
      else
        let k := s.fetchPlants rest r.2 serialNumbers
        ⟨k.val, k.gw,
          [Event.log Level.Info "fetch plant details" [Attr.String "plantId" plant.PlantID],
           Event.call (Call.GetNoahPlantInfo plant.PlantID)] ++ k.trace⟩

def Service.fetchNoahSerialNumbers (s : Service σ S B) (w : σ) : Run σ (List String) :=
  let r := s.options.GrowattClient.GetPlantList w
  match r.1 with
  | Except.error err =>
    ⟨Outcome.panic err, r.2,
      [Event.log Level.Info "fetching plant list" [], Event.call Call.GetPlantList,
       Event.log Level.Error "could not get plant list" [Attr.String "error" err.Error]]⟩
  | Except.ok list =>
    let k := s.fetchPlants list.Back.Data r.2 []
    if k.val.length = 0 then
      ⟨Outcome.exit 0, k.gw,
        [Event.log Level.Info "fetching plant list" [], Event.call Call.GetPlantList] ++ k.trace ++
        [Event.log Level.Info "no noah devices found" [], Event.After (60 * Second)]⟩
    else
      ⟨Outcome.ret k.val, k.gw,
        [Event.log Level.Info "fetching plant list" [], Event.call Call.GetPlantList] ++ k.trace⟩

/-- The loop `for i := 0; i < batCount; i++` of `enumerateDevices`: `n` is the
number of rounds left (`batCount - i`), `batteries` the slice appended to. -/
def Service.batteryInfos (s : Service σ S B) (serialNumber : String) :
    Nat → Int → List homeassistant.BatteryInfo → List homeassistant.BatteryInfo
  | 0, _, batteries => batteries
  | n + 1, i, batteries =>
    s.batteryInfos serialNumber n (i + 1)
      (batteries ++ [{ Alias := fmt.Sprintf "BAT%d" [fmt.Arg.int i],
                       StateTopic := s.stateTopicBattery serialNumber i }])

/-- The `DeviceInfo` that `enumerateDevices` builds from a status response. -/
def Service.deviceInfo (s : Service σ S B) (serialNumber : String) (data : growatt.NoahInfo) :
    homeassistant.DeviceInfo :=
  let batCount := data.Obj.Noah.BatSns.length
  let batteries := s.batteryInfos serialNumber batCount 0 []
  { SerialNumber := serialNumber,
    Alias := data.Obj.Noah.Alias,
    StateTopic := s.deviceStateTopic serialNumber,
    Batteries := batteries,
    Model := data.Obj.Noah.Model,
    Version := data.Obj.Noah.Version }

/-- The loop over the serial numbers in `enumerateDevices`: the serial numbers
still to visit, the client state, and `devices` as appended to so far. -/
def Service.enumerateLoop (s : Service σ S B) :
    List String → σ → List homeassistant.DeviceInfo → Step σ (List homeassistant.DeviceInfo)
  | [], w, devices => ⟨devices, w, []⟩
  | serialNumber :: rest, w, devices =>
    let r := s.options.GrowattClient.GetNoahInfo serialNumber w
    match r.1 with
    | Except.error err =>
      let k := s.enumerateLoop rest r.2 devices
      ⟨k.val, k.gw,
        [Event.call (Call.GetNoahInfo serialNumber),
         Event.log Level.Error "could not noah status"
           [Attr.String "error" err.Error, Attr.String "serialNumber" serialNumber]] ++ k.trace⟩
    | Except.ok data =>
      let k := s.enumerateLoop rest r.2 (devices ++ [s.deviceInfo serialNumber data])
      ⟨k.val, k.gw, [Event.call (Call.GetNoahInfo serialNumber)] ++ k.trace⟩

/-- The method `enumerateDevices`: on return the service holds the serial
numbers in its field `serialNumbers`. -/
def Service.enumerateDevices (s : Service σ S B) (w : σ) : Run σ (Service σ S B) :=
  let r := s.fetchNoahSerialNumbers w
  match r.out with
  | Outcome.panic err => ⟨Outcome.panic err, r.gw, r.trace⟩
  | Outcome.exit code => ⟨Outcome.exit code, r.gw, r.trace⟩
  | Outcome.ret serialNumbers =>
    let k := s.enumerateLoop serialNumbers r.gw []
    ⟨Outcome.ret { s with serialNumbers := serialNumbers }, k.gw,
      r.trace ++ k.trace ++ [Event.SetDevices k.val]⟩

/-- The method `Start`: the last event of a normal return is the launch of the
poll task. -/
def Service.Start (s : Service σ S B) (w : σ) : Run σ (Service σ S B) :=
  let r := s.options.GrowattClient.Login w
  match r.1 with
  | some err =>
    ⟨Outcome.panic err, r.2,
      [Event.call Call.Login,
       Event.log Level.Error "could not login to growatt account"
         [Attr.String "error" err.Error]]⟩
  | none =>
    let k := s.enumerateDevices r.2
    match k.out with
    | Outcome.panic err => ⟨Outcome.panic err, k.gw, [Event.call Call.Login] ++ k.trace⟩
    | Outcome.exit code => ⟨Outcome.exit code, k.gw, [Event.call Call.Login] ++ k.trace⟩
    | Outcome.ret s' => ⟨Outcome.ret s', k.gw, [Event.call Call.Login] ++ k.trace ++ [Event.goPoll]⟩

/-- The loop `for i, bat := range data.Obj.Batter` of `poll`: the entries still
to visit and the index `i` of the first of them. -/
def Service.pollBatteries (s : Service σ S B) (m : Marshal S B) (serialNumber : String) :
    List B → Int → List Event
  | [], _ => []
  | bat :: rest, i =>
    match m.battery bat with
    | Except.error err =>
      [Event.log Level.Error "could not marshal battery data" [Attr.String "error" err.Error]]
        ++ s.pollBatteries m serialNumber rest (i + 1)
    | Except.ok b =>
      [Event.Publish (s.stateTopicBattery serialNumber i) 0 false b,
       Event.log Level.Debug "battery data received"
         [Attr.String "data" b, Attr.String "device" serialNumber]]
        ++ s.pollBatteries m serialNumber rest (i + 1)

/-- The first statement of the body of the loop over the serial numbers in
`poll`: the device status. -/
def Service.pollStatus (s : Service σ S B) (m : Marshal S B) (serialNumber : String) (w : σ) :
    Step σ Unit :=
  let r := s.options.GrowattClient.GetNoahStatus serialNumber w
  match r.1 with
  | Except.error err =>
    ⟨(), r.2,
      [Event.call (Call.GetNoahStatus serialNumber),
       Event.log Level.Error "could not get device data"
         [Attr.String "error" err.Error, Attr.String "device" serialNumber]]⟩
  | Except.ok data =>
    match m.status data with
    | Except.error err =>
      ⟨(), r.2,
        [Event.call (Call.GetNoahStatus serialNumber),
         Event.log Level.Error "could not marshal device data"
           [Attr.String "error" err.Error, Attr.String "device" serialNumber]]⟩
    | Except.ok b =>
      ⟨(), r.2,
        [Event.call (Call.GetNoahStatus serialNumber),
         Event.Publish (s.deviceStateTopic serialNumber) 0 false b,
         Event.log Level.Debug "device data received"
           [Attr.String "data" b, Attr.String "device" serialNumber]]⟩

/-- The second statement of the body of the loop over the serial numbers in
`poll`: the battery data. -/
def Service.pollBatteryData (s : Service σ S B) (m : Marshal S B) (serialNumber : String)
    (w : σ) : Step σ Unit :=
  let r := s.options.GrowattClient.GetBatteryData serialNumber w
  match r.1 with
  | Except.error err =>
    ⟨(), r.2,
      [Event.call (Call.GetBatteryData serialNumber),
       Event.log Level.Error "could not get battery data"
         [Attr.String "error" err.Error, Attr.String "device" serialNumber]]⟩
  | Except.ok data =>
    ⟨(), r.2,
      [Event.call (Call.GetBatteryData serialNumber)]
        ++ s.pollBatteries m serialNumber data.Obj.Batter 0⟩

/-- The body of the loop over the serial numbers in `poll`. -/
def Service.pollDevice (s : Service σ S B) (m : Marshal S B) (serialNumber : String) (w : σ) :
    Step σ Unit :=
  let a := s.pollStatus m serialNumber w
  let b := s.pollBatteryData m serialNumber a.gw
  ⟨(), b.gw, a.trace ++ b.trace⟩

/-- The loop `for _, serialNumber := range ...` of `poll` over the serial
numbers still to visit. -/
def Service.pollDevices (s : Service σ S B) (m : Marshal S B) : List String → σ → Step σ Unit
  | [], w => ⟨(), w, []⟩
  | serialNumber :: rest, w =>
    let a := s.pollDevice m serialNumber w
    let k := s.pollDevices m rest a.gw
    ⟨(), k.gw, a.trace ++ k.trace⟩

/-- One round of the endless loop of `poll`: every retained serial number, then
the wait for the polling interval. The service is handed on to the next round
as it is left. -/
def Service.pollCycle (s : Service σ S B) (m : Marshal S B) (w : σ) : Step σ (Service σ S B) :=
  let k := s.pollDevices m s.serialNumbers w
  ⟨s, k.gw, k.trace ++ [Event.After s.options.PollingInterval]⟩

/-- The first `cycles` rounds of the endless loop of `poll`. -/
def Service.pollLoop (s : Service σ S B) (m : Marshal S B) : Nat → σ → Step σ (Service σ S B)
  | 0, w => ⟨s, w, []⟩
  | cycles + 1, w =>
    let a := s.pollCycle m w
    let k := a.val.pollLoop m cycles a.gw
    ⟨k.val, k.gw, a.trace ++ k.trace⟩

/-- The method `poll`, which never returns, observed for its first `cycles`
rounds. -/
def Service.poll (s : Service σ S B) (m : Marshal S B) (cycles : Nat) (w : σ) :
    Step σ (Service σ S B) :=
  let k := s.pollLoop m cycles w
  ⟨k.val, k.gw,
    [Event.log Level.Info "start polling growatt"
      [Attr.Int "interval" (Int.tdiv s.options.PollingInterval Second)]] ++ k.trace⟩

/-- The service from `Start` on: startup and, when `Start` returns, the first
`cycles` rounds of the poll task it launched. -/
def Service.run (s : Service σ S B) (m : Marshal S B) (cycles : Nat) (w : σ) :
    Run σ (Service σ S B) :=
  let r := s.Start w
  match r.out with
  | Outcome.panic err => ⟨Outcome.panic err, r.gw, r.trace⟩
  | Outcome.exit code => ⟨Outcome.exit code, r.gw, r.trace⟩
  | Outcome.ret s' =>
    let k := s'.poll m cycles r.gw
    ⟨Outcome.ret k.val, k.gw, r.trace ++ k.trace⟩

end

/-! ## Reading the trace -/

/-- The base-10 numeral of `n`: its digits, most significant first, with no
leading zero, and the single digit `0` for zero. -/
def decimal (n : Nat) : String :=
  String.mk (if n = 0 then ['0'] else (Nat.digits 10 n).reverse.map Nat.digitChar)

/-- The topic of a `Publish` event. -/
def Event.topic? : Event → Option String
  | Event.Publish topic _ _ _ => some topic
  | _ => none

/-- The topics of the `Publish` events of a trace, in order. -/
def topics (trace : List Event) : List String :=
  trace.filterMap Event.topic?

/-- Whether an event is a `Publish`. -/
def Event.isPublish : Event → Bool
  | Event.Publish _ _ _ _ => true
  | _ => false

/-- The `Publish` events of a trace, in order. -/
def publishes (trace : List Event) : List Event :=
  trace.filter Event.isPublish

/-- The Growatt call of a `call` event. -/
def Event.call? : Event → Option Call
  | Event.call c => some c
  | _ => none

/-- The plants looked up in a trace, in order. -/
def plantLookups (trace : List Event) : List String :=
  trace.filterMap (fun e =>
    match e with
    | Event.call (Call.GetNoahPlantInfo plantId) => some plantId
    | _ => none)

/-- The inventories handed to the registrar in a trace, in order. -/
def handoffs (trace : List Event) : List (List homeassistant.DeviceInfo) :=
  trace.filterMap (fun e =>
    match e with
    | Event.SetDevices devices => some devices
    | _ => none)

/-- Whether an event belongs to what follows the plant list: a plant lookup, a
device-info, device-status or battery fetch, the handoff of the inventory, the
launch of the poll task, a publish or a wait. -/
def Event.afterPlantList : Event → Bool
  | Event.call Call.Login => false
  | Event.call Call.GetPlantList => false
  | Event.log _ _ _ => false
  | _ => true

/-- Whether an event belongs to what follows the discovery of the serial
numbers: a device-info, device-status or battery fetch, the handoff of the
inventory, the launch of the poll task or a publish. -/
def Event.afterDiscovery : Event → Bool
  | Event.call (Call.GetNoahInfo _) => true
  | Event.call (Call.GetNoahStatus _) => true
  | Event.call (Call.GetBatteryData _) => true
  | Event.SetDevices _ => true
  | Event.Publish _ _ _ _ => true
  | Event.goPoll => true
  | _ => false

/-- Whether an event is a wait. -/
def Event.isWait : Event → Bool
  | Event.After _ => true
  | _ => false

/-- The answers an operation of the client gives when it is called on each
element of a list in turn, each call starting from the state the one before
left. -/
def answers {α β : Type} (f : α → σ → β × σ) : List α → σ → List β
  | [], _ => []
  | a :: rest, w => (f a w).1 :: answers f rest (f a w).2

/-- The serial number a plant lookup resolves to: the `DeviceSn` of a
successful answer when it is not empty. -/
def resolved? : Except GoError growatt.NoahPlantInfo → Option String
  | Except.ok info => if info.Obj.DeviceSn = "" then none else some info.Obj.DeviceSn
  | Except.error _ => none

/-- The serial numbers the plants of a list resolve to when looked up in turn
from the state `w`: plant-list order, nothing merged. -/
def Service.resolvedSerials (s : Service σ S B) (plants : List growatt.Plant) (w : σ) :
    List String :=
  (answers s.options.GrowattClient.GetNoahPlantInfo (plants.map (fun p => p.PlantID)) w).filterMap
    resolved?

/-- What the inventory says of a device apart from its batteries. -/
structure DeviceSummary where
  SerialNumber : String
  Alias : String
  Model : String
  Version : String
  StateTopic : String
deriving DecidableEq, Repr

def DeviceSummary.of (d : homeassistant.DeviceInfo) : DeviceSummary :=
  { SerialNumber := d.SerialNumber, Alias := d.Alias, Model := d.Model, Version := d.Version,
    StateTopic := d.StateTopic }

/-- The summaries expected in the inventory for a list of serial numbers whose
device info is fetched in turn from the state `w`: one for each successful
answer, none for a failed one. -/
def Service.expectedSummaries (s : Service σ S B) (serialNumbers : List String) (w : σ) :
    List DeviceSummary :=
  (List.zip serialNumbers (answers s.options.GrowattClient.GetNoahInfo serialNumbers w)).filterMap
    (fun p =>
      match p.2 with
      | Except.ok data =>
        some { SerialNumber := p.1, Alias := data.Obj.Noah.Alias, Model := data.Obj.Noah.Model,
               Version := data.Obj.Noah.Version, StateTopic := s.deviceStateTopic p.1 }
      | Except.error _ => none)

/-- The records built for a list of serial numbers whose device info is
fetched in turn from the state `w`: the record of `deviceInfo` for each
successful answer. -/
def Service.builtDevices (s : Service σ S B) (serialNumbers : List String) (w : σ) :
    List homeassistant.DeviceInfo :=
  (List.zip serialNumbers (answers s.options.GrowattClient.GetNoahInfo serialNumbers w)).filterMap
    (fun p =>
      match p.2 with
      | Except.ok data => some (s.deviceInfo p.1 data)
      | Except.error _ => none)

/-- The rounds of the loop over the serial numbers of `poll`, one by one: each
serial number with the events of its own round, the rounds run in turn from
the state `w`. -/
def Service.pollSegments (s : Service σ S B) (m : Marshal S B) :
    List String → σ → List (String × List Event)
  | [], _ => []
  | serialNumber :: rest, w =>
    (serialNumber, (s.pollDevice m serialNumber w).trace)
      :: s.pollSegments m rest (s.pollDevice m serialNumber w).gw

/-- The messages published for the serial numbers other than `serialNumber`:
the rounds of the other serial numbers, in order, each with its publishes. -/
def messagesExcept (serialNumber : String) (segments : List (String × List Event)) :
    List (String × List Event) :=
  (segments.filter (fun p => decide (p.1 ≠ serialNumber))).map (fun p => (p.1, publishes p.2))

/-- Whether an event is a device-status fetch for a serial number. -/
def Event.isStatusFetch (serialNumber : String) : Event → Bool
  | Event.call (Call.GetNoahStatus fetched) => fetched == serialNumber
  | _ => false

/-- The number of device-status fetches for a serial number in a trace. -/
def statusFetches (serialNumber : String) (trace : List Event) : Nat :=
  trace.countP (Event.isStatusFetch serialNumber)

/-- The topics expected of one round of the poll loop when nothing fails: for
each serial number in turn the device topic, then the battery topics of the
indices below the number of entries of its battery answer. -/
def Service.cycleTopics (s : Service σ S B) : List String → σ → List String
  | [], _ => []
  | serialNumber :: rest, w =>
    let w1 := (s.options.GrowattClient.GetNoahStatus serialNumber w).2
    let r := s.options.GrowattClient.GetBatteryData serialNumber w1
    let k := match r.1 with
      | Except.ok answer => answer.Obj.Batter.length
      | Except.error _ => 0
    [s.deviceStateTopic serialNumber]
      ++ (List.range k).map (fun i : Nat => s.stateTopicBattery serialNumber (i : Int))
      ++ s.cycleTopics rest r.2

/-- Whether an event, when it is a publish, is one with QoS 0 and not
retained. -/
def Event.fireAndForget : Event → Bool
  | Event.Publish _ qos retained _ => qos == 0 && !retained
  | _ => true

/-- The rounds of the loop over the serial numbers of `poll` with the client
state each starts from: the serial number, the state before its round and the
events of its round, the rounds run in turn from the state `w`. -/
def Service.pollRounds (s : Service σ S B) (m : Marshal S B) :
    List String → σ → List (String × σ × List Event)
  | [], _ => []
  | serialNumber :: rest, w =>
    (serialNumber, w, (s.pollDevice m serialNumber w).trace)
      :: s.pollRounds m rest (s.pollDevice m serialNumber w).gw

/-- The topics published for a serial number in a cycle: those of the rounds
of that serial number, in order. -/
def roundTopics (serialNumber : String) (segments : List (String × List Event)) : List String :=
  (segments.filter (fun p => decide (p.1 = serialNumber))).flatMap (fun p => topics p.2)

/-- The topics an inventory gives for a serial number: the device topic and the
battery topics of each of its records for that serial number, in order. -/
def inventoryTopics (serialNumber : String) (devices : List homeassistant.DeviceInfo) :
    List String :=
  (devices.filter (fun d => decide (d.SerialNumber = serialNumber))).flatMap
    (fun d => d.StateTopic :: d.Batteries.map (fun b => b.StateTopic))

/-! ## Concrete accounts -/

namespace Scenario

/-- The marshalling that gives every response as its own body. -/
def marshal : Marshal String String :=
  { status := fun data => Except.ok data,
    battery := fun bat => Except.ok bat }

/-- An account with the plants `A` and `B`: `A` resolves to the device `S1`, the
lookup of `B` fails; the device has two batteries. -/
def client : growatt.Client Unit String String :=
  { Login := fun w => (none, w),
    GetPlantList := fun w => (Except.ok ⟨⟨[⟨"A"⟩, ⟨"B"⟩]⟩⟩, w),
    GetNoahPlantInfo := fun plantId w =>
      if plantId = "A" then (Except.ok ⟨⟨"S1"⟩⟩, w) else (Except.error ⟨"no such plant"⟩, w),
    GetNoahInfo := fun _ w => (Except.ok ⟨⟨⟨["B1", "B2"], "Noah", "Noah 2000", "1.0"⟩⟩⟩, w),
    GetNoahStatus := fun _ w => (Except.ok "status", w),
    GetBatteryData := fun _ w => (Except.ok ⟨⟨["bat0", "bat1"]⟩⟩, w) }

def service : Service Unit String String :=
  NewService { GrowattClient := client, PollingInterval := 10 * Second, TopicPrefix := "noah" }

/-- The service once started on the account. -/
def started : Service Unit String String :=
  { service with serialNumbers := ["S1"] }

end Scenario

namespace Outage

/-- An account with the plants `A` and `B` resolving to the devices `S1` and
`S2`, where every call listed in `failed` fails and the device info of `S2` is
never available. -/
def client (failed : List Call) : growatt.Client Unit String String :=
  { Login := fun w =>
      if Call.Login ∈ failed then (some ⟨"timeout"⟩, w) else (none, w),
    GetPlantList := fun w =>
      if Call.GetPlantList ∈ failed then (Except.error ⟨"timeout"⟩, w)
      else (Except.ok ⟨⟨[⟨"A"⟩, ⟨"B"⟩]⟩⟩, w),
    GetNoahPlantInfo := fun plantId w =>
      if plantId = "A" then (Except.ok ⟨⟨"S1"⟩⟩, w) else (Except.ok ⟨⟨"S2"⟩⟩, w),
    GetNoahInfo := fun serialNumber w =>
      if serialNumber = "S1" then
        (Except.ok ⟨⟨⟨["B1", "B2"], "Noah", "Noah 2000", "1.0"⟩⟩⟩, w)
      else (Except.error ⟨"offline"⟩, w),
    GetNoahStatus := fun serialNumber w =>
      if Call.GetNoahStatus serialNumber ∈ failed then (Except.error ⟨"timeout"⟩, w)
      else (Except.ok ("status of " ++ serialNumber), w),
    GetBatteryData := fun serialNumber w =>
      if Call.GetBatteryData serialNumber ∈ failed then (Except.error ⟨"timeout"⟩, w)
      else (Except.ok ⟨⟨["bat0 of " ++ serialNumber, "bat1 of " ++ serialNumber]⟩⟩, w) }

def options (failed : List Call) : Options Unit String String :=
  { GrowattClient := client failed, PollingInterval := 10 * Second, TopicPrefix := "noah" }

/-- The service once started on the account: both devices are polled. -/
def service (failed : List Call) : Service Unit String String :=
  { options := options failed, serialNumbers := ["S1", "S2"] }

end Outage

namespace Vacant

/-- An account with one plant, which resolves to the empty serial number. -/
def client : growatt.Client Unit String String :=
  { Login := fun w => (none, w),
    GetPlantList := fun w => (Except.ok ⟨⟨[⟨"A"⟩]⟩⟩, w),
    GetNoahPlantInfo := fun _ w => (Except.ok ⟨⟨""⟩⟩, w),
    GetNoahInfo := fun _ w => (Except.ok ⟨⟨⟨[], "", "", ""⟩⟩⟩, w),
    GetNoahStatus := fun _ w => (Except.ok "status", w),
    GetBatteryData := fun _ w => (Except.ok ⟨⟨[]⟩⟩, w) }

def service : Service Unit String String :=
  NewService { GrowattClient := client, PollingInterval := 10 * Second, TopicPrefix := "noah" }

end Vacant

namespace Flaky

/-- An account like the one of `Outage` whose state counts the device-status
fetches made: the first of them fails when it is for `S1`, every other
succeeds. -/
def client : growatt.Client Nat String String :=
  { Login := fun w => (none, w),
    GetPlantList := fun w => (Except.ok ⟨⟨[⟨"A"⟩, ⟨"B"⟩]⟩⟩, w),
    GetNoahPlantInfo := fun plantId w =>
      if plantId = "A" then (Except.ok ⟨⟨"S1"⟩⟩, w) else (Except.ok ⟨⟨"S2"⟩⟩, w),
    GetNoahInfo := fun _ w => (Except.ok ⟨⟨⟨["B1", "B2"], "Noah", "Noah 2000", "1.0"⟩⟩⟩, w),
    GetNoahStatus := fun serialNumber w =>
      if serialNumber = "S1" ∧ w = 0 then (Except.error ⟨"timeout"⟩, w + 1)
      else (Except.ok ("status of " ++ serialNumber), w + 1),
    GetBatteryData := fun serialNumber w =>
      (Except.ok ⟨⟨["bat0 of " ++ serialNumber, "bat1 of " ++ serialNumber]⟩⟩, w) }

def service : Service Nat String String :=
  { options := { GrowattClient := client, PollingInterval := 10 * Second,
                 TopicPrefix := "noah" },
    serialNumbers := ["S1", "S2"] }

end Flaky

namespace Twin

/-- An account whose plants `A` and `B` both resolve to the device `S1`; its
state counts the device-status fetches made, and the first of them fails. -/
def client : growatt.Client Nat String String :=
  { Login := fun w => (none, w),
    GetPlantList := fun w => (Except.ok ⟨⟨[⟨"A"⟩, ⟨"B"⟩]⟩⟩, w),
    GetNoahPlantInfo := fun _ w => (Except.ok ⟨⟨"S1"⟩⟩, w),
    GetNoahInfo := fun _ w => (Except.ok ⟨⟨⟨["B1", "B2"], "Noah", "Noah 2000", "1.0"⟩⟩⟩, w),
    GetNoahStatus := fun serialNumber w =>
      if w = 0 then (Except.error ⟨"timeout"⟩, w + 1)
      else (Except.ok ("status of " ++ serialNumber), w + 1),
    GetBatteryData := fun serialNumber w =>
      (Except.ok ⟨⟨["bat0 of " ++ serialNumber, "bat1 of " ++ serialNumber]⟩⟩, w) }

def service : Service Nat String String :=
  NewService { GrowattClient := client, PollingInterval := 10 * Second, TopicPrefix := "noah" }

/-- The service once started on the account: the device is listed twice. -/
def started : Service Nat String String :=
  { service with serialNumbers := ["S1", "S1"] }

end Twin

/-! ## Lemmas on numerals and topics -/

theorem toDigitsCore_digits (fuel : Nat) : ∀ (n : Nat) (ds : List Char), 0 < n → n < fuel →
    Nat.toDigitsCore 10 fuel n ds = (Nat.digits 10 n).reverse.map Nat.digitChar ++ ds := by
  induction fuel with
  | zero => intro n ds _ h; omega
  | succ fuel ih =>
    intro n ds hn hlt
    have hd : Nat.digits 10 n = (n % 10) :: Nat.digits 10 (n / 10) :=
      Nat.digits_def' (by decide) hn
    rw [Nat.toDigitsCore, hd]
    by_cases h0 : n / 10 = 0
    · simp [h0]
    · have h1 : 0 < n / 10 := Nat.pos_of_ne_zero h0
      have h2 : n / 10 < fuel := by omega
      simp [h0, ih (n / 10) _ h1 h2]

theorem toDigits_eq_decimal (n : Nat) : Nat.toDigits 10 n = (decimal n).data := by
  unfold decimal
  by_cases h : n = 0
  · subst h; rfl
  · simp [h, Nat.toDigits, toDigitsCore_digits (n + 1) n [] (Nat.pos_of_ne_zero h) (by omega)]

theorem fmtInteger_ofNat (n : Nat) : fmt.fmtInteger (n : Int) = (decimal n).data := by
  show fmt.fmtInteger (Int.ofNat n) = _
  rw [fmt.fmtInteger, toDigits_eq_decimal]

theorem deviceStateTopic_eq (s : Service σ S B) (serialNumber : String) :
    s.deviceStateTopic serialNumber = s.options.TopicPrefix ++ "/" ++ serialNumber := by
  apply String.ext
  simp [Service.deviceStateTopic, fmt.Sprintf, fmt.doPrintf]

theorem stateTopicBattery_eq (s : Service σ S B) (serialNumber : String) (i : Nat) :
    s.stateTopicBattery serialNumber (i : Int)
      = s.deviceStateTopic serialNumber ++ "/BAT" ++ decimal i := by
  apply String.ext
  simp [Service.stateTopicBattery, Service.deviceStateTopic, fmt.Sprintf, fmt.doPrintf,
    fmtInteger_ofNat]

theorem alias_eq (i : Nat) : fmt.Sprintf "BAT%d" [fmt.Arg.int (i : Int)] = "BAT" ++ decimal i := by
  apply String.ext
  simp [fmt.Sprintf, fmt.doPrintf, fmtInteger_ofNat]

theorem digitChar_toNat (d : Nat) (h : d < 10) : (Nat.digitChar d).toNat - 48 = d := by
  interval_cases d <;> rfl

/-- Reading a numeral back gives the number, so the numeral determines it. -/
theorem ofDigits_decimal (n : Nat) :
    Nat.ofDigits 10 ((decimal n).data.reverse.map (fun c => c.toNat - 48)) = n := by
  unfold decimal
  by_cases h : n = 0
  · subst h; rfl
  · have hmap : (Nat.digits 10 n).map ((fun c => c.toNat - 48) ∘ Nat.digitChar)
        = Nat.digits 10 n := by
      conv_rhs => rw [← List.map_id (Nat.digits 10 n)]
      apply List.map_congr_left
      intro d hd
      exact digitChar_toNat d (Nat.digits_lt_base (by decide) hd)
    simp only [h, if_false, ← List.map_reverse, List.reverse_reverse, List.map_map, hmap]
    exact Nat.ofDigits_digits 10 n

theorem decimal_injective : Function.Injective decimal := by
  intro a b h
  rw [← ofDigits_decimal a, ← ofDigits_decimal b, h]

theorem decimal_head (n : Nat) (h : n ≠ 0) : (decimal n).data.head? ≠ some '0' := by
  have hne : Nat.digits 10 n ≠ [] := Nat.digits_ne_nil_iff_ne_zero.mpr h
  have hl := Nat.getLast_digit_ne_zero 10 h
  simp only [decimal, h, if_false, List.head?_map, List.head?_reverse,
    List.getLast?_eq_getLast _ hne, Option.map_some', ne_eq, Option.some.injEq]
  intro hc
  have hlt : (Nat.digits 10 n).getLast hne < 10 :=
    Nat.digits_lt_base (by decide) (List.getLast_mem hne)
  have := digitChar_toNat _ hlt
  rw [hc] at this
  exact hl this.symm

theorem string_append_left_cancel (a b c : String) (h : a ++ b = a ++ c) : b = c := by
  apply String.ext
  have := congrArg String.data h
  simpa using this

theorem string_take_append (a b : String) : (a ++ b).take ((a ++ b).length - b.length) = a := by
  have hlen : (a ++ b).length - b.length = a.data.length := by
    rw [String.length_append]
    show a.data.length + b.length - b.length = a.data.length
    omega
  rw [String.take_eq, hlen]
  apply String.ext
  show List.take a.data.length (a ++ b).data = a.data
  rw [String.data_append, List.take_left]

theorem stateTopicBattery_injective (s : Service σ S B) (serialNumber : String) (i j : Nat)
    (h : s.stateTopicBattery serialNumber (i : Int) = s.stateTopicBattery serialNumber (j : Int)) :
    i = j := by
  rw [stateTopicBattery_eq, stateTopicBattery_eq] at h
  exact decimal_injective (string_append_left_cancel _ _ _ h)

theorem stateTopicBattery_ne_device (s : Service σ S B) (serialNumber : String) (i : Nat) :
    s.stateTopicBattery serialNumber (i : Int) ≠ s.deviceStateTopic serialNumber := by
  intro h
  rw [stateTopicBattery_eq, String.append_assoc] at h
  have h2 : s.deviceStateTopic serialNumber ++ ("/BAT" ++ decimal i)
      = s.deviceStateTopic serialNumber ++ "" := by simpa using h
  have h3 := congrArg String.data (string_append_left_cancel _ _ _ h2)
  simp at h3

/-- The battery records of the loop of `enumerateDevices`, in closed form. -/
theorem batteryInfos_eq (s : Service σ S B) (serialNumber : String) (n : Nat) :
    ∀ (i : Nat) (batteries : List homeassistant.BatteryInfo),
      s.batteryInfos serialNumber n (i : Int) batteries
        = batteries ++ (List.range' i n).map (fun k =>
            { Alias := "BAT" ++ decimal k,
              StateTopic := s.stateTopicBattery serialNumber (k : Int) }) := by
  induction n with
  | zero => intro i batteries; simp [Service.batteryInfos]
  | succ n ih =>
    intro i batteries
    have hc : (i : Int) + 1 = ((i + 1 : Nat) : Int) := by push_cast; rfl
    rw [Service.batteryInfos, hc, ih, alias_eq]
    simp [List.range'_succ]

/-- The publishes of the loop over the battery entries of `poll`, in closed
form: the entries whose marshalling succeeds, each under its own position. -/
theorem publishes_pollBatteries (s : Service σ S B) (m : Marshal S B) (serialNumber : String) :
    ∀ (bats : List B) (i : Nat),
      publishes (s.pollBatteries m serialNumber bats (i : Int))
        = (bats.enumFrom i).filterMap (fun p =>
            match m.battery p.2 with
            | Except.ok b => some (Event.Publish (s.stateTopicBattery serialNumber (p.1 : Int)) 0 false b)
            | Except.error _ => none) := by
  intro bats
  induction bats with
  | nil => intro i; simp [Service.pollBatteries, publishes]
  | cons bat rest ih =>
    intro i
    have hc : (i : Int) + 1 = ((i + 1 : Nat) : Int) := by push_cast; rfl
    have ih' := ih (i + 1)
    rw [← hc] at ih'
    unfold publishes at ih' ⊢
    rw [Service.pollBatteries]
    cases hb : m.battery bat with
    | error err => simp [List.enumFrom, hb, ih', Event.isPublish]
    | ok b => simp [List.enumFrom, hb, ih', Event.isPublish]

/-! ## The topic layout -/

/-- C1: the device topic is the topic stem, a slash and the serial number, the
battery topic is the device topic followed by `/BAT` and the plain base-10
numeral of the index (no leading zero), and cutting that suffix off the battery
topic gives the device topic back; nothing of the stem or the serial is changed. -/
theorem topic_layout (s : Service σ S B) (serialNumber : String) (i : Nat) :
    s.deviceStateTopic serialNumber = s.options.TopicPrefix ++ "/" ++ serialNumber ∧
    s.stateTopicBattery serialNumber (i : Int)
      = s.deviceStateTopic serialNumber ++ "/BAT" ++ decimal i ∧
    (s.stateTopicBattery serialNumber (i : Int)).take
        ((s.stateTopicBattery serialNumber (i : Int)).length - ("/BAT" ++ decimal i).length)
      = s.deviceStateTopic serialNumber ∧
    (i ≠ 0 → (decimal i).data.head? ≠ some '0') := by
  refine ⟨deviceStateTopic_eq s serialNumber, stateTopicBattery_eq s serialNumber i, ?_,
    decimal_head i⟩
  rw [stateTopicBattery_eq, String.append_assoc]
  exact string_take_append _ _

theorem topics_append (a b : List Event) : topics (a ++ b) = topics a ++ topics b := by
  simp [topics]

/-- The battery topics of one device in one cycle are those of a sublist of the
positions `i, i + 1, ...`. -/
theorem topics_pollBatteries_sublist (s : Service σ S B) (m : Marshal S B)
    (serialNumber : String) (bats : List B) (i : Nat) :
    ∃ idx : List Nat, idx.Sublist (List.range' i bats.length) ∧
      topics (s.pollBatteries m serialNumber bats (i : Int))
        = idx.map (fun k : Nat => s.stateTopicBattery serialNumber (k : Int)) := by
  induction bats generalizing i with
  | nil => exact ⟨[], by simp, by simp [Service.pollBatteries, topics]⟩
  | cons bat rest ih =>
    obtain ⟨idx, hsub, heq⟩ := ih (i + 1)
    have hc : (i : Int) + 1 = ((i + 1 : Nat) : Int) := by push_cast; rfl
    rw [← hc] at heq
    cases hb : m.battery bat with
    | error err =>
      refine ⟨idx, ?_, ?_⟩
      · simpa [List.range'_succ] using List.Sublist.cons i hsub
      · rw [Service.pollBatteries]
        simp only [hb, topics_append, heq]
        simp [topics, Event.topic?]
    | ok b =>
      refine ⟨i :: idx, ?_, ?_⟩
      · simpa [List.range'_succ] using hsub
      · rw [Service.pollBatteries]
        simp only [hb, topics_append, heq]
        simp [topics, Event.topic?]

theorem nodup_battery_topics (s : Service σ S B) (serialNumber : String) (idx : List Nat)
    (h : idx.Nodup) :
    (s.deviceStateTopic serialNumber
      :: idx.map (fun k : Nat => s.stateTopicBattery serialNumber (k : Int))).Nodup := by
  rw [List.nodup_cons]
  constructor
  · intro hmem
    obtain ⟨k, _, hk⟩ := List.mem_map.mp hmem
    exact stateTopicBattery_ne_device s serialNumber k hk
  · exact h.map (fun a b hab => stateTopicBattery_injective s serialNumber a b hab)

theorem topics_pollStatus (s : Service σ S B) (m : Marshal S B) (serialNumber : String) (w : σ) :
    topics (s.pollStatus m serialNumber w).trace = [] ∨
    topics (s.pollStatus m serialNumber w).trace = [s.deviceStateTopic serialNumber] := by
  cases h : (s.options.GrowattClient.GetNoahStatus serialNumber w).1 with
  | error err => left; simp [Service.pollStatus, h, topics, Event.topic?]
  | ok data =>
    cases hm : m.status data with
    | error err => left; simp [Service.pollStatus, h, hm, topics, Event.topic?]
    | ok b => right; simp [Service.pollStatus, h, hm, topics, Event.topic?]

theorem topics_pollBatteryData (s : Service σ S B) (m : Marshal S B) (serialNumber : String)
    (w : σ) :
    ∃ idx : List Nat, idx.Nodup ∧
      topics (s.pollBatteryData m serialNumber w).trace
        = idx.map (fun k : Nat => s.stateTopicBattery serialNumber (k : Int)) := by
  cases h : (s.options.GrowattClient.GetBatteryData serialNumber w).1 with
  | error err =>
    exact ⟨[], by simp, by simp [Service.pollBatteryData, h, topics, Event.topic?]⟩
  | ok data =>
    obtain ⟨idx, hsub, heq⟩ := topics_pollBatteries_sublist s m serialNumber data.Obj.Batter 0
    refine ⟨idx, (List.nodup_range' 0 _).sublist hsub, ?_⟩
    rw [show ((0 : Nat) : Int) = 0 from rfl] at heq
    simp only [Service.pollBatteryData, h, topics_append, heq]
    simp [topics, Event.topic?]

/-- The device topic and the battery topics of one record are pairwise
distinct. -/
theorem deviceInfo_topics_nodup (s : Service σ S B) (serialNumber : String)
    (data : growatt.NoahInfo) :
    ((s.deviceInfo serialNumber data).StateTopic
      :: (s.deviceInfo serialNumber data).Batteries.map (fun b => b.StateTopic)).Nodup := by
  have hb := batteryInfos_eq s serialNumber data.Obj.Noah.BatSns.length 0 []
  rw [show ((0 : Nat) : Int) = 0 from rfl] at hb
  simp only [Service.deviceInfo, hb, List.nil_append, List.map_map]
  exact nodup_battery_topics s serialNumber (List.range' 0 data.Obj.Noah.BatSns.length)
    (List.nodup_range' 0 _)

/-- The topics published in one round of a serial number are pairwise distinct. -/
theorem topics_pollDevice_nodup (s : Service σ S B) (m : Marshal S B) (serialNumber : String)
    (w : σ) : (topics (s.pollDevice m serialNumber w).trace).Nodup := by
  unfold Service.pollDevice
  simp only [topics_append]
  obtain ⟨idx, hnd, heq⟩ :=
    topics_pollBatteryData s m serialNumber (s.pollStatus m serialNumber w).gw
  rw [heq]
  have hall := nodup_battery_topics s serialNumber idx hnd
  rcases topics_pollStatus s m serialNumber w with h | h
  · rw [h]; exact (List.nodup_cons.mp hall).2
  · rw [h]; exact hall

/-! ## Discovery of the serial numbers -/

theorem utf8ByteSize_go_pos (c : Char) (cs : List Char) : 0 < String.utf8ByteSize.go (c :: cs) := by
  have := Char.utf8Size_pos c
  simp only [String.utf8ByteSize.go]
  omega

theorem utf8ByteSize_pos_iff (t : String) : t.utf8ByteSize > 0 ↔ t ≠ "" := by
  cases t with
  | mk data =>
    cases data with
    | nil => simp [String.utf8ByteSize, String.utf8ByteSize.go]
    | cons c cs =>
      have h := utf8ByteSize_go_pos c cs
      have hne : String.mk (c :: cs) ≠ "" := by
        intro hc
        have := congrArg String.data hc
        simp at this
      simp only [String.utf8ByteSize, gt_iff_lt, h, ne_eq, hne, not_false_eq_true]

/-- The loop over the plants appends the resolved serial numbers, in order, to
the ones found so far, and looks every plant up once. -/
theorem fetchPlants_spec (s : Service σ S B) :
    ∀ (plants : List growatt.Plant) (w : σ) (serialNumbers : List String),
      (s.fetchPlants plants w serialNumbers).val = serialNumbers ++ s.resolvedSerials plants w ∧
      plantLookups (s.fetchPlants plants w serialNumbers).trace
        = plants.map (fun p => p.PlantID) ∧
      (∀ e ∈ (s.fetchPlants plants w serialNumbers).trace,
        e.afterDiscovery = false ∧ e.isWait = false) := by
  intro plants
  induction plants with
  | nil =>
    intro w serialNumbers
    simp [Service.fetchPlants, Service.resolvedSerials, answers, plantLookups]
  | cons plant rest ih =>
    intro w serialNumbers
    cases hr : (s.options.GrowattClient.GetNoahPlantInfo plant.PlantID w).1 with
    | error err =>
      obtain ⟨h1, h2, h3⟩ := ih (s.options.GrowattClient.GetNoahPlantInfo plant.PlantID w).2
        serialNumbers
      unfold plantLookups at h2 ⊢
      refine ⟨?_, ?_, ?_⟩
      · simp [Service.fetchPlants, hr, h1, Service.resolvedSerials, answers, resolved?]
      · simp [Service.fetchPlants, hr, h2]
      · simp only [Service.fetchPlants, hr]
        intro e he
        simp only [List.cons_append, List.nil_append, List.mem_cons] at he
        rcases he with he | he | he | he
        · subst he; exact ⟨rfl, rfl⟩
        · subst he; exact ⟨rfl, rfl⟩
        · subst he; exact ⟨rfl, rfl⟩
        · exact h3 e he
    | ok info =>
      by_cases hsn : info.Obj.DeviceSn = ""
      · have hz : ¬ (info.Obj.DeviceSn.utf8ByteSize > 0) := by
          rw [utf8ByteSize_pos_iff]; simp [hsn]
        obtain ⟨h1, h2, h3⟩ := ih (s.options.GrowattClient.GetNoahPlantInfo plant.PlantID w).2
          serialNumbers
        unfold plantLookups at h2 ⊢
        refine ⟨?_, ?_, ?_⟩
        · simp only [Service.fetchPlants, hr, hz, if_false]
          simp [h1, Service.resolvedSerials, answers, resolved?, hr, hsn]
        · simp [Service.fetchPlants, hr, hz, h2]
        · simp only [Service.fetchPlants, hr, hz, if_false]
          intro e he
          simp only [List.cons_append, List.nil_append, List.mem_cons] at he
          rcases he with he | he | he
          · subst he; exact ⟨rfl, rfl⟩
          · subst he; exact ⟨rfl, rfl⟩
          · exact h3 e he
      · have hz : info.Obj.DeviceSn.utf8ByteSize > 0 := by
          rw [utf8ByteSize_pos_iff]; exact hsn
        obtain ⟨h1, h2, h3⟩ := ih (s.options.GrowattClient.GetNoahPlantInfo plant.PlantID w).2
          (serialNumbers ++ [info.Obj.DeviceSn])
        unfold plantLookups at h2 ⊢
        refine ⟨?_, ?_, ?_⟩
        · simp only [Service.fetchPlants, hr, hz, if_true]
          simp [h1, Service.resolvedSerials, answers, resolved?, hr, hsn]
        · simp [Service.fetchPlants, hr, hz, h2]
        · simp only [Service.fetchPlants, hr, hz, if_true]
          intro e he
          simp only [List.cons_append, List.nil_append, List.mem_cons] at he
          rcases he with he | he | he | he
          · subst he; exact ⟨rfl, rfl⟩
          · subst he; exact ⟨rfl, rfl⟩
          · subst he; exact ⟨rfl, rfl⟩
          · exact h3 e he

/-- What `fetchNoahSerialNumbers` does when the plant list is fetched and some
plant resolves to a serial number. -/
theorem fetchNoahSerialNumbers_found (s : Service σ S B) (w w1 : σ) (list : growatt.PlantList)
    (hlist : s.options.GrowattClient.GetPlantList w = (Except.ok list, w1))
    (hsome : s.resolvedSerials list.Back.Data w1 ≠ []) :
    (s.fetchNoahSerialNumbers w).out = Outcome.ret (s.resolvedSerials list.Back.Data w1) ∧
    (s.fetchNoahSerialNumbers w).gw = (s.fetchPlants list.Back.Data w1 []).gw ∧
    (s.fetchNoahSerialNumbers w).trace
      = [Event.log Level.Info "fetching plant list" [], Event.call Call.GetPlantList]
          ++ (s.fetchPlants list.Back.Data w1 []).trace := by
  have hv := (fetchPlants_spec s list.Back.Data w1 []).1
  rw [List.nil_append] at hv
  have hlen : ¬ ((s.fetchPlants list.Back.Data w1 []).val.length = 0) := by
    rw [hv, List.length_eq_zero]; exact hsome
  simp only [Service.fetchNoahSerialNumbers, hlist, hlen, if_false]
  rw [hv]
  simp

/-- What `fetchNoahSerialNumbers` does when the plant list is fetched and no
plant resolves to a serial number. -/
theorem fetchNoahSerialNumbers_none (s : Service σ S B) (w w1 : σ) (list : growatt.PlantList)
    (hlist : s.options.GrowattClient.GetPlantList w = (Except.ok list, w1))
    (hnone : s.resolvedSerials list.Back.Data w1 = []) :
    (s.fetchNoahSerialNumbers w).out = Outcome.exit 0 ∧
    (s.fetchNoahSerialNumbers w).trace
      = [Event.log Level.Info "fetching plant list" [], Event.call Call.GetPlantList]
          ++ (s.fetchPlants list.Back.Data w1 []).trace
          ++ [Event.log Level.Info "no noah devices found" [], Event.After (60 * Second)] := by
  have hv := (fetchPlants_spec s list.Back.Data w1 []).1
  rw [List.nil_append, hnone] at hv
  have hlen : (s.fetchPlants list.Back.Data w1 []).val.length = 0 := by
    rw [hv]; rfl
  simp only [Service.fetchNoahSerialNumbers, hlist, hlen, if_true]
  simp

/-- What `fetchNoahSerialNumbers` does when the plant list call fails. -/
theorem fetchNoahSerialNumbers_failed (s : Service σ S B) (w w1 : σ) (err : GoError)
    (hlist : s.options.GrowattClient.GetPlantList w = (Except.error err, w1)) :
    (s.fetchNoahSerialNumbers w).out = Outcome.panic err ∧
    (s.fetchNoahSerialNumbers w).trace
      = [Event.log Level.Info "fetching plant list" [], Event.call Call.GetPlantList,
         Event.log Level.Error "could not get plant list" [Attr.String "error" err.Error]] := by
  simp only [Service.fetchNoahSerialNumbers, hlist]
  simp

/-- C2: when the plant list is fetched and at least one plant resolves to a
non-empty serial number, `fetchNoahSerialNumbers` returns the `DeviceSn` of the
plants whose lookup succeeded with a non-empty `DeviceSn`, in plant-list order
and with nothing merged; a plant whose lookup fails or gives an empty `DeviceSn`
adds nothing, and every plant of the list is looked up, once and in order. -/
theorem fetchNoahSerialNumbers_returns (s : Service σ S B) (w w1 : σ) (list : growatt.PlantList)
    (hlist : s.options.GrowattClient.GetPlantList w = (Except.ok list, w1))
    (hsome : s.resolvedSerials list.Back.Data w1 ≠ []) :
    (s.fetchNoahSerialNumbers w).out = Outcome.ret (s.resolvedSerials list.Back.Data w1) ∧
    plantLookups (s.fetchNoahSerialNumbers w).trace = list.Back.Data.map (fun p => p.PlantID) := by
  obtain ⟨hout, _, htrace⟩ := fetchNoahSerialNumbers_found s w w1 list hlist hsome
  refine ⟨hout, ?_⟩
  rw [htrace]
  have h2 := (fetchPlants_spec s list.Back.Data w1 []).2.1
  unfold plantLookups at h2 ⊢
  simp [h2]

theorem fetchNoahSerialNumbers_returns_witness :
    Scenario.service.options.GrowattClient.GetPlantList ()
      = (Except.ok ⟨⟨[⟨"A"⟩, ⟨"B"⟩]⟩⟩, ()) ∧
    Scenario.service.resolvedSerials [⟨"A"⟩, ⟨"B"⟩] () ≠ [] ∧
    (Scenario.service.fetchNoahSerialNumbers ()).out = Outcome.ret ["S1"] ∧
    plantLookups (Scenario.service.fetchNoahSerialNumbers ()).trace = ["A", "B"] :=
  ⟨rfl, by decide,
    fetchNoahSerialNumbers_returns Scenario.service () () ⟨⟨[⟨"A"⟩, ⟨"B"⟩]⟩⟩ rfl (by decide)⟩

/-- Nothing that follows the discovery happens inside `fetchNoahSerialNumbers`. -/
theorem fetchNoahSerialNumbers_clean (s : Service σ S B) (w : σ) :
    ∀ e ∈ (s.fetchNoahSerialNumbers w).trace, e.afterDiscovery = false := by
  intro e he
  cases hr : (s.options.GrowattClient.GetPlantList w).1 with
  | error err =>
    simp only [Service.fetchNoahSerialNumbers, hr, List.mem_cons, List.mem_singleton,
      List.not_mem_nil, or_false] at he
    rcases he with he | he | he <;> subst he <;> rfl
  | ok list =>
    have h3 := (fetchPlants_spec s list.Back.Data (s.options.GrowattClient.GetPlantList w).2 []).2.2
    simp only [Service.fetchNoahSerialNumbers, hr] at he
    split at he
    · simp only [List.cons_append, List.nil_append, List.mem_cons, List.mem_append,
        List.mem_singleton, List.not_mem_nil, or_false] at he
      rcases he with he | he | he | he | he
      · subst he; rfl
      · subst he; rfl
      · exact (h3 e he).1
      · subst he; rfl
      · subst he; rfl
    · simp only [List.cons_append, List.nil_append, List.mem_cons] at he
      rcases he with he | he | he
      · subst he; rfl
      · subst he; rfl
      · exact (h3 e he).1

/-- A list returned by `fetchNoahSerialNumbers` is never empty. -/
theorem fetchNoahSerialNumbers_ret_ne_nil (s : Service σ S B) (w : σ) (serialNumbers : List String)
    (h : (s.fetchNoahSerialNumbers w).out = Outcome.ret serialNumbers) : serialNumbers ≠ [] := by
  cases hr : (s.options.GrowattClient.GetPlantList w).1 with
  | error err => simp [Service.fetchNoahSerialNumbers, hr] at h
  | ok list =>
    simp only [Service.fetchNoahSerialNumbers, hr] at h
    split at h
    · simp at h
    · rename_i hlen
      simp only [Outcome.ret.injEq] at h
      rw [← h]
      intro hc
      exact hlen (by rw [hc]; rfl)

/-! ## The inventory -/

/-- The loop of `enumerateDevices` appends the records built from the
successful answers, in order, and hands nothing to the registrar itself. -/
theorem enumerateLoop_spec (s : Service σ S B) :
    ∀ (serialNumbers : List String) (w : σ) (devices : List homeassistant.DeviceInfo),
      (s.enumerateLoop serialNumbers w devices).val = devices ++ s.builtDevices serialNumbers w ∧
      handoffs (s.enumerateLoop serialNumbers w devices).trace = [] := by
  intro serialNumbers
  induction serialNumbers with
  | nil => intro w devices; simp [Service.enumerateLoop, Service.builtDevices, answers, handoffs]
  | cons sn rest ih =>
    intro w devices
    cases hr : (s.options.GrowattClient.GetNoahInfo sn w).1 with
    | error err =>
      obtain ⟨h1, h2⟩ := ih (s.options.GrowattClient.GetNoahInfo sn w).2 devices
      unfold handoffs at h2 ⊢
      unfold Service.builtDevices at h1 ⊢
      simp only [Service.enumerateLoop, hr]
      constructor
      · simp [h1, answers, hr]
      · simp [h2]
    | ok data =>
      obtain ⟨h1, h2⟩ := ih (s.options.GrowattClient.GetNoahInfo sn w).2
        (devices ++ [s.deviceInfo sn data])
      unfold handoffs at h2 ⊢
      unfold Service.builtDevices at h1 ⊢
      simp only [Service.enumerateLoop, hr]
      constructor
      · simp [h1, answers, hr]
      · simp [h2]

theorem builtDevices_summaries (s : Service σ S B) :
    ∀ (serialNumbers : List String) (w : σ),
      (s.builtDevices serialNumbers w).map DeviceSummary.of
        = s.expectedSummaries serialNumbers w := by
  intro serialNumbers
  induction serialNumbers with
  | nil => intro w; simp [Service.builtDevices, Service.expectedSummaries, answers]
  | cons sn rest ih =>
    intro w
    have ih' := ih (s.options.GrowattClient.GetNoahInfo sn w).2
    unfold Service.builtDevices Service.expectedSummaries at ih' ⊢
    cases hr : (s.options.GrowattClient.GetNoahInfo sn w).1 with
    | error err => simp [answers, hr, ih']
    | ok data =>
      simp only [answers, hr, List.zip_cons_cons, List.filterMap_cons, List.map_cons, ih']
      rfl

theorem handoffs_eq_nil (trace : List Event) (h : ∀ e ∈ trace, e.afterDiscovery = false) :
    handoffs trace = [] := by
  unfold handoffs
  rw [List.filterMap_eq_nil_iff]
  intro e he
  have := h e he
  cases e <;> simp_all [Event.afterDiscovery]

/-- C5: `enumerateDevices` keeps the whole list returned by
`fetchNoahSerialNumbers` as the poll list, whatever the device-info lookups
answer, and hands the registrar one inventory, holding one record for each
serial number whose lookup succeeded, in the order of the list, with the serial
number, the alias, model and version of the answer and the device topic of the
serial number; a serial number whose lookup failed has no record. -/
theorem enumerateDevices_inventory (s : Service σ S B) (w : σ) (serialNumbers : List String)
    (h : (s.fetchNoahSerialNumbers w).out = Outcome.ret serialNumbers) :
    serialNumbers ≠ [] ∧
    (s.enumerateDevices w).out = Outcome.ret { s with serialNumbers := serialNumbers } ∧
    handoffs (s.enumerateDevices w).trace
      = [s.builtDevices serialNumbers (s.fetchNoahSerialNumbers w).gw] ∧
    (s.builtDevices serialNumbers (s.fetchNoahSerialNumbers w).gw).map DeviceSummary.of
      = s.expectedSummaries serialNumbers (s.fetchNoahSerialNumbers w).gw := by
  refine ⟨fetchNoahSerialNumbers_ret_ne_nil s w serialNumbers h, ?_, ?_,
    builtDevices_summaries s serialNumbers _⟩
  · simp only [Service.enumerateDevices, h]
  · obtain ⟨h1, h2⟩ := enumerateLoop_spec s serialNumbers (s.fetchNoahSerialNumbers w).gw []
    have h0 := handoffs_eq_nil _ (fetchNoahSerialNumbers_clean s w)
    simp only [Service.enumerateDevices, h]
    unfold handoffs at h0 h2 ⊢
    simp [h0, h2, h1]

theorem builtDevices_mem (s : Service σ S B) :
    ∀ (serialNumbers : List String) (w : σ) (d : homeassistant.DeviceInfo),
      d ∈ s.builtDevices serialNumbers w →
      ∃ data, Except.ok data ∈ answers s.options.GrowattClient.GetNoahInfo serialNumbers w ∧
        d = s.deviceInfo d.SerialNumber data := by
  intro serialNumbers w d hd
  unfold Service.builtDevices at hd
  obtain ⟨p, hp, hpd⟩ := List.mem_filterMap.mp hd
  have hmem := (List.of_mem_zip hp).2
  cases hans : p.2 with
  | error err => simp [hans] at hpd
  | ok data =>
    simp only [hans, Option.some.injEq] at hpd
    refine ⟨data, hans ▸ hmem, ?_⟩
    rw [← hpd]
    rfl

/-- C6: the record built from a status answer listing `n` battery serials has
`n` batteries, the one at position `i` with alias `BAT` followed by the numeral
of `i` and the battery topic of index `i`; and the battery step of the poll
loop publishes the entry at position `i` of the battery answer, when its
marshalling succeeds, to the battery topic of the same index `i`. Every record of an inventory is built so, from the answer
of the device-info fetch for its serial number. -/
theorem battery_records_match (s : Service σ S B) (m : Marshal S B) (serialNumber : String)
    (data : growatt.NoahInfo) :
    (∀ (serialNumbers : List String) (w : σ) (d : homeassistant.DeviceInfo),
      d ∈ s.builtDevices serialNumbers w →
      ∃ answer, Except.ok answer ∈ answers s.options.GrowattClient.GetNoahInfo serialNumbers w ∧
        d = s.deviceInfo d.SerialNumber answer) ∧
    (s.deviceInfo serialNumber data).Batteries.length = data.Obj.Noah.BatSns.length ∧
    (∀ i : Nat, i < data.Obj.Noah.BatSns.length →
      (s.deviceInfo serialNumber data).Batteries[i]?
        = some { Alias := "BAT" ++ decimal i,
                 StateTopic := s.stateTopicBattery serialNumber (i : Int) }) ∧
    (∀ (w : σ) (answer : growatt.BatteryInfo B),
      (s.options.GrowattClient.GetBatteryData serialNumber w).1 = Except.ok answer →
      publishes (s.pollBatteryData m serialNumber w).trace
        = answer.Obj.Batter.enum.filterMap (fun p =>
            match m.battery p.2 with
            | Except.ok b =>
              some (Event.Publish (s.stateTopicBattery serialNumber (p.1 : Int)) 0 false b)
            | Except.error _ => none)) := by
  have hb := batteryInfos_eq s serialNumber data.Obj.Noah.BatSns.length 0 []
  rw [show ((0 : Nat) : Int) = 0 from rfl, List.nil_append] at hb
  refine ⟨builtDevices_mem s, ?_, ?_, ?_⟩
  · simp [Service.deviceInfo, hb]
  · intro i hi
    simp only [Service.deviceInfo, hb]
    rw [List.getElem?_map, List.getElem?_range' _ _ hi]
    simp
  · intro w answer hans
    have hp := publishes_pollBatteries s m serialNumber answer.Obj.Batter 0
    rw [show ((0 : Nat) : Int) = 0 from rfl] at hp
    simp only [Service.pollBatteryData, hans, List.enum]
    rw [← hp]
    simp [publishes, Event.isPublish]

/-! ## Startup -/

/-- When `fetchNoahSerialNumbers` does not return, neither does anything above
it, and nothing is added to its trace but the login. -/
theorem run_of_fetch_panic (s : Service σ S B) (m : Marshal S B) (cycles : Nat) (w w0 : σ)
    (err : GoError) (hlogin : s.options.GrowattClient.Login w = (none, w0))
    (h : (s.fetchNoahSerialNumbers w0).out = Outcome.panic err) :
    (s.Start w).out = Outcome.panic err ∧
    (s.run m cycles w).out = Outcome.panic err ∧
    (s.run m cycles w).trace = [Event.call Call.Login] ++ (s.fetchNoahSerialNumbers w0).trace := by
  have he : (s.enumerateDevices w0).out = Outcome.panic err ∧
      (s.enumerateDevices w0).trace = (s.fetchNoahSerialNumbers w0).trace := by
    simp only [Service.enumerateDevices, h]
    simp
  have hs : (s.Start w).out = Outcome.panic err ∧
      (s.Start w).trace = [Event.call Call.Login] ++ (s.fetchNoahSerialNumbers w0).trace := by
    simp only [Service.Start, hlogin, he.1, he.2]
    simp
  refine ⟨hs.1, ?_⟩
  simp only [Service.run, hs.1, hs.2]
  simp

theorem run_of_fetch_exit (s : Service σ S B) (m : Marshal S B) (cycles : Nat) (w w0 : σ)
    (code : Int) (hlogin : s.options.GrowattClient.Login w = (none, w0))
    (h : (s.fetchNoahSerialNumbers w0).out = Outcome.exit code) :
    (s.Start w).out = Outcome.exit code ∧
    (s.run m cycles w).out = Outcome.exit code ∧
    (s.run m cycles w).trace = [Event.call Call.Login] ++ (s.fetchNoahSerialNumbers w0).trace := by
  have he : (s.enumerateDevices w0).out = Outcome.exit code ∧
      (s.enumerateDevices w0).trace = (s.fetchNoahSerialNumbers w0).trace := by
    simp only [Service.enumerateDevices, h]
    simp
  have hs : (s.Start w).out = Outcome.exit code ∧
      (s.Start w).trace = [Event.call Call.Login] ++ (s.fetchNoahSerialNumbers w0).trace := by
    simp only [Service.Start, hlogin, he.1, he.2]
    simp
  refine ⟨hs.1, ?_⟩
  simp only [Service.run, hs.1, hs.2]
  simp

theorem run_of_login_failed (s : Service σ S B) (m : Marshal S B) (cycles : Nat) (w w1 : σ)
    (err : GoError) (hlogin : s.options.GrowattClient.Login w = (some err, w1)) :
    (s.Start w).out = Outcome.panic err ∧
    (s.run m cycles w).out = Outcome.panic err ∧
    (s.run m cycles w).trace
      = [Event.call Call.Login,
         Event.log Level.Error "could not login to growatt account"
           [Attr.String "error" err.Error]] := by
  have hs : (s.Start w).out = Outcome.panic err ∧
      (s.Start w).trace = [Event.call Call.Login,
         Event.log Level.Error "could not login to growatt account"
           [Attr.String "error" err.Error]] := by
    simp only [Service.Start, hlogin]
    simp
  refine ⟨hs.1, ?_⟩
  simp only [Service.run, hs.1, hs.2]
  simp

/-- C8: when the login fails, or the login succeeds and the plant list call
fails, startup ends in a panic carrying that error, `Start` does not return,
and the trace holds the login, at most the plant list call, and log records:
no plant lookup, no device fetch, no handoff of an inventory, no launch of the
poll task and no poll round, however many rounds are observed. -/
theorem startup_fatal (s : Service σ S B) (m : Marshal S B) (cycles : Nat) (w : σ)
    (err : GoError)
    (h : (∃ w1, s.options.GrowattClient.Login w = (some err, w1)) ∨
         (∃ w0 w1, s.options.GrowattClient.Login w = (none, w0) ∧
            s.options.GrowattClient.GetPlantList w0 = (Except.error err, w1))) :
    (s.Start w).out = Outcome.panic err ∧
    (s.run m cycles w).out = Outcome.panic err ∧
    ((s.run m cycles w).trace
        = [Event.call Call.Login,
           Event.log Level.Error "could not login to growatt account"
             [Attr.String "error" err.Error]] ∨
     (s.run m cycles w).trace
        = [Event.call Call.Login,
           Event.log Level.Info "fetching plant list" [],
           Event.call Call.GetPlantList,
           Event.log Level.Error "could not get plant list" [Attr.String "error" err.Error]]) ∧
    (∀ e ∈ (s.run m cycles w).trace, e.afterPlantList = false) := by
  rcases h with ⟨w1, hlogin⟩ | ⟨w0, w1, hlogin, hlist⟩
  · obtain ⟨h1, h2, h3⟩ := run_of_login_failed s m cycles w w1 err hlogin
    refine ⟨h1, h2, Or.inl h3, ?_⟩
    intro e he
    rw [h3] at he
    simp only [List.mem_cons, List.mem_singleton, List.not_mem_nil, or_false] at he
    rcases he with he | he <;> subst he <;> rfl
  · obtain ⟨hf1, hf2⟩ := fetchNoahSerialNumbers_failed s w0 w1 err hlist
    obtain ⟨h1, h2, h3⟩ := run_of_fetch_panic s m cycles w w0 err hlogin hf1
    rw [hf2] at h3
    refine ⟨h1, h2, Or.inr h3, ?_⟩
    intro e he
    rw [h3] at he
    simp only [List.cons_append, List.nil_append, List.mem_cons, List.mem_singleton,
      List.not_mem_nil, or_false] at he
    rcases he with he | he | he | he <;> subst he <;> rfl

/-- C9: when the login succeeds, the plant list is fetched and no plant
resolves to a non-empty serial number, startup ends with `os.Exit(0)`; the last
event before the exit is the wait of 60 seconds, no other wait precedes it, and
before it there is no device fetch, no handoff of an inventory, no launch of
the poll task and no publish, however many rounds are observed. -/
theorem startup_no_devices (s : Service σ S B) (m : Marshal S B) (cycles : Nat) (w w0 w1 : σ)
    (list : growatt.PlantList)
    (hlogin : s.options.GrowattClient.Login w = (none, w0))
    (hlist : s.options.GrowattClient.GetPlantList w0 = (Except.ok list, w1))
    (hnone : s.resolvedSerials list.Back.Data w1 = []) :
    (s.Start w).out = Outcome.exit 0 ∧
    (s.run m cycles w).out = Outcome.exit 0 ∧
    ∃ before, (s.run m cycles w).trace = before ++ [Event.After (60 * Second)] ∧
      60 * Second = 60000000000 ∧
      ∀ e ∈ before, e.isWait = false ∧ e.afterDiscovery = false := by
  obtain ⟨hf1, hf2⟩ := fetchNoahSerialNumbers_none s w0 w1 list hlist hnone
  obtain ⟨h1, h2, h3⟩ := run_of_fetch_exit s m cycles w w0 0 hlogin hf1
  refine ⟨h1, h2, [Event.call Call.Login, Event.log Level.Info "fetching plant list" [],
      Event.call Call.GetPlantList] ++ (s.fetchPlants list.Back.Data w1 []).trace
      ++ [Event.log Level.Info "no noah devices found" []], ?_, by decide, ?_⟩
  · rw [h3, hf2]; simp
  · intro e he
    have hp := (fetchPlants_spec s list.Back.Data w1 []).2.2
    simp only [List.cons_append, List.nil_append, List.mem_cons, List.mem_append,
      List.mem_singleton, List.not_mem_nil, or_false] at he
    rcases he with he | he | he | he | he
    · subst he; exact ⟨rfl, rfl⟩
    · subst he; exact ⟨rfl, rfl⟩
    · subst he; exact ⟨rfl, rfl⟩
    · exact ⟨(hp e he).2, (hp e he).1⟩
    · subst he; exact ⟨rfl, rfl⟩

/-! ## The poll loop -/

theorem publishes_append (a b : List Event) : publishes (a ++ b) = publishes a ++ publishes b := by
  simp [publishes]

theorem statusFetches_append (serialNumber : String) (a b : List Event) :
    statusFetches serialNumber (a ++ b) = statusFetches serialNumber a + statusFetches serialNumber b := by
  simp [statusFetches]

theorem statusFetches_pollBatteries (s : Service σ S B) (m : Marshal S B) (sn0 serialNumber : String) :
    ∀ (bats : List B) (i : Int), statusFetches sn0 (s.pollBatteries m serialNumber bats i) = 0 := by
  intro bats
  induction bats with
  | nil => intro i; simp [Service.pollBatteries, statusFetches]
  | cons bat rest ih =>
    intro i
    have ih' := ih (i + 1)
    unfold statusFetches at ih' ⊢
    rw [Service.pollBatteries]
    cases hb : m.battery bat with
    | error err => simpa [Event.isStatusFetch] using ih'
    | ok b => simpa [Event.isStatusFetch] using ih'

theorem statusFetches_pollBatteryData (s : Service σ S B) (m : Marshal S B)
    (sn0 serialNumber : String) (w : σ) :
    statusFetches sn0 (s.pollBatteryData m serialNumber w).trace = 0 := by
  cases h : (s.options.GrowattClient.GetBatteryData serialNumber w).1 with
  | error err => simp [Service.pollBatteryData, h, statusFetches, Event.isStatusFetch]
  | ok data =>
    have hb := statusFetches_pollBatteries s m sn0 serialNumber data.Obj.Batter 0
    simp only [Service.pollBatteryData, h, statusFetches_append, hb]
    simp [statusFetches, Event.isStatusFetch]

theorem statusFetches_pollStatus (s : Service σ S B) (m : Marshal S B)
    (sn0 serialNumber : String) (w : σ) :
    statusFetches sn0 (s.pollStatus m serialNumber w).trace
      = if serialNumber = sn0 then 1 else 0 := by
  cases h : (s.options.GrowattClient.GetNoahStatus serialNumber w).1 with
  | error err => simp [Service.pollStatus, h, statusFetches, Event.isStatusFetch, List.countP_cons]
  | ok data =>
    cases hm : m.status data with
    | error err =>
      simp [Service.pollStatus, h, hm, statusFetches, Event.isStatusFetch, List.countP_cons]
    | ok b =>
      simp [Service.pollStatus, h, hm, statusFetches, Event.isStatusFetch, List.countP_cons]

theorem statusFetches_pollDevice (s : Service σ S B) (m : Marshal S B)
    (sn0 serialNumber : String) (w : σ) :
    statusFetches sn0 (s.pollDevice m serialNumber w).trace
      = if serialNumber = sn0 then 1 else 0 := by
  simp only [Service.pollDevice, statusFetches_append, statusFetches_pollStatus,
    statusFetches_pollBatteryData, Nat.add_zero]

theorem statusFetches_pollDevices (s : Service σ S B) (m : Marshal S B) (sn0 : String) :
    ∀ (serialNumbers : List String) (w : σ),
      statusFetches sn0 (s.pollDevices m serialNumbers w).trace = serialNumbers.count sn0 := by
  intro serialNumbers
  induction serialNumbers with
  | nil => intro w; simp [Service.pollDevices, statusFetches]
  | cons sn rest ih =>
    intro w
    simp only [Service.pollDevices, statusFetches_append, statusFetches_pollDevice, ih,
      List.count_cons, beq_iff_eq]
    omega

theorem statusFetches_pollLoop (s : Service σ S B) (m : Marshal S B) (sn0 : String) :
    ∀ (cycles : Nat) (w : σ),
      statusFetches sn0 (s.pollLoop m cycles w).trace = cycles * s.serialNumbers.count sn0 := by
  intro cycles
  induction cycles with
  | zero => intro w; simp [Service.pollLoop, statusFetches]
  | succ cycles ih =>
    intro w
    have hc : statusFetches sn0 (s.pollCycle m w).trace = s.serialNumbers.count sn0 := by
      simp only [Service.pollCycle, statusFetches_append, statusFetches_pollDevices]
      simp [statusFetches, Event.isStatusFetch]
    have hv : (s.pollCycle m w).val = s := rfl
    rw [Service.pollLoop]
    simp only [statusFetches_append, hc, hv, ih]
    rw [Nat.succ_mul]
    omega

/-- The events of all rounds of the loop over the serial numbers are those of
the rounds taken one by one. -/
theorem pollDevices_segments (s : Service σ S B) (m : Marshal S B) :
    ∀ (serialNumbers : List String) (w : σ),
      (s.pollDevices m serialNumbers w).trace
        = ((s.pollSegments m serialNumbers w).map Prod.snd).flatten := by
  intro serialNumbers
  induction serialNumbers with
  | nil => intro w; simp [Service.pollDevices, Service.pollSegments]
  | cons sn rest ih =>
    intro w
    simp [Service.pollDevices, Service.pollSegments, ih]

theorem stateTopicBattery_congr {σ₁ σ₂ : Type} (s₁ : Service σ₁ S B) (s₂ : Service σ₂ S B)
    (hstem : s₁.options.TopicPrefix = s₂.options.TopicPrefix) (serialNumber : String) (i : Int) :
    s₁.stateTopicBattery serialNumber i = s₂.stateTopicBattery serialNumber i := by
  simp only [Service.stateTopicBattery, hstem]

theorem deviceStateTopic_congr {σ₁ σ₂ : Type} (s₁ : Service σ₁ S B) (s₂ : Service σ₂ S B)
    (hstem : s₁.options.TopicPrefix = s₂.options.TopicPrefix) (serialNumber : String) :
    s₁.deviceStateTopic serialNumber = s₂.deviceStateTopic serialNumber := by
  simp only [Service.deviceStateTopic, hstem]

theorem pollBatteries_congr {σ₁ σ₂ : Type} (s₁ : Service σ₁ S B) (s₂ : Service σ₂ S B)
    (m : Marshal S B) (hstem : s₁.options.TopicPrefix = s₂.options.TopicPrefix)
    (serialNumber : String) :
    ∀ (bats : List B) (i : Int),
      s₁.pollBatteries m serialNumber bats i = s₂.pollBatteries m serialNumber bats i := by
  intro bats
  induction bats with
  | nil => intro i; simp [Service.pollBatteries]
  | cons bat rest ih =>
    intro i
    rw [Service.pollBatteries, Service.pollBatteries, ih (i + 1),
      stateTopicBattery_congr s₁ s₂ hstem]

theorem pollStatus_gw (s : Service σ S B) (m : Marshal S B) (serialNumber : String) (w : σ) :
    (s.pollStatus m serialNumber w).gw
      = (s.options.GrowattClient.GetNoahStatus serialNumber w).2 := by
  cases h : (s.options.GrowattClient.GetNoahStatus serialNumber w).1 with
  | error err => simp only [Service.pollStatus, h]
  | ok data => cases hm : m.status data <;> simp only [Service.pollStatus, h, hm]

theorem pollBatteryData_gw (s : Service σ S B) (m : Marshal S B) (serialNumber : String)
    (w : σ) :
    (s.pollBatteryData m serialNumber w).gw
      = (s.options.GrowattClient.GetBatteryData serialNumber w).2 := by
  cases h : (s.options.GrowattClient.GetBatteryData serialNumber w).1 <;>
    simp only [Service.pollBatteryData, h]

/-- The client state after one round of the loop over the serial numbers. -/
theorem pollDevice_gw (s : Service σ S B) (m : Marshal S B) (serialNumber : String) (w : σ) :
    (s.pollDevice m serialNumber w).gw
      = (s.options.GrowattClient.GetBatteryData serialNumber
          (s.options.GrowattClient.GetNoahStatus serialNumber w).2).2 := by
  simp only [Service.pollDevice, pollBatteryData_gw, pollStatus_gw]

/-- Two services with the same topic stem whose clients answer the status and
the battery fetch of a serial number alike produce the same events for it. -/
theorem pollDevice_congr {σ₁ σ₂ : Type} (s₁ : Service σ₁ S B) (s₂ : Service σ₂ S B)
    (m : Marshal S B) (hstem : s₁.options.TopicPrefix = s₂.options.TopicPrefix)
    (serialNumber : String) (a : σ₁) (b : σ₂)
    (hstatus : (s₁.options.GrowattClient.GetNoahStatus serialNumber a).1
      = (s₂.options.GrowattClient.GetNoahStatus serialNumber b).1)
    (hbattery : (s₁.options.GrowattClient.GetBatteryData serialNumber
        (s₁.options.GrowattClient.GetNoahStatus serialNumber a).2).1
      = (s₂.options.GrowattClient.GetBatteryData serialNumber
        (s₂.options.GrowattClient.GetNoahStatus serialNumber b).2).1) :
    (s₁.pollDevice m serialNumber a).trace = (s₂.pollDevice m serialNumber b).trace := by
  have h1 : (s₁.pollStatus m serialNumber a).trace = (s₂.pollStatus m serialNumber b).trace := by
    cases h : (s₂.options.GrowattClient.GetNoahStatus serialNumber b).1 with
    | error err =>
      simp only [Service.pollStatus, hstatus, h]
    | ok data =>
      cases hm : m.status data <;>
        simp only [Service.pollStatus, hstatus, h, hm, deviceStateTopic_congr s₁ s₂ hstem]
  have h2 : (s₁.pollBatteryData m serialNumber (s₁.pollStatus m serialNumber a).gw).trace
      = (s₂.pollBatteryData m serialNumber (s₂.pollStatus m serialNumber b).gw).trace := by
    rw [pollStatus_gw, pollStatus_gw]
    cases h : (s₂.options.GrowattClient.GetBatteryData serialNumber
        (s₂.options.GrowattClient.GetNoahStatus serialNumber b).2).1 with
    | error err => simp only [Service.pollBatteryData, hbattery, h]
    | ok data =>
      simp only [Service.pollBatteryData, hbattery, h, pollBatteries_congr s₁ s₂ m hstem]
  simp only [Service.pollDevice, h1, h2]

theorem messagesExcept_segments {σ₁ σ₂ : Type} (s₁ : Service σ₁ S B) (s₂ : Service σ₂ S B)
    (m : Marshal S B) (sn0 : String) (R : σ₁ → σ₂ → Prop)
    (hstem : s₁.options.TopicPrefix = s₂.options.TopicPrefix)
    (hstatus : ∀ t a b, R a b →
      R (s₁.options.GrowattClient.GetNoahStatus t a).2
        (s₂.options.GrowattClient.GetNoahStatus t b).2 ∧
      (t ≠ sn0 → (s₁.options.GrowattClient.GetNoahStatus t a).1
        = (s₂.options.GrowattClient.GetNoahStatus t b).1))
    (hbattery : ∀ t a b, R a b →
      R (s₁.options.GrowattClient.GetBatteryData t a).2
        (s₂.options.GrowattClient.GetBatteryData t b).2 ∧
      (t ≠ sn0 → (s₁.options.GrowattClient.GetBatteryData t a).1
        = (s₂.options.GrowattClient.GetBatteryData t b).1)) :
    ∀ (serialNumbers : List String) (a : σ₁) (b : σ₂), R a b →
      messagesExcept sn0 (s₁.pollSegments m serialNumbers a)
        = messagesExcept sn0 (s₂.pollSegments m serialNumbers b) := by
  intro serialNumbers
  induction serialNumbers with
  | nil => intro a b _; rfl
  | cons t rest ih =>
    intro a b hab
    have hs := hstatus t a b hab
    have hb := hbattery t _ _ hs.1
    have hrest := ih (s₁.pollDevice m t a).gw (s₂.pollDevice m t b).gw
      (by rw [pollDevice_gw, pollDevice_gw]; exact hb.1)
    unfold messagesExcept at hrest ⊢
    by_cases ht : t = sn0
    · subst ht
      simp only [Service.pollSegments, List.filter_cons, ne_eq, not_true_eq_false,
        decide_False, Bool.false_eq_true, if_false]
      exact hrest
    · have htr := pollDevice_congr s₁ s₂ m hstem t a b (hs.2 ht) (hb.2 ht)
      simp only [Service.pollSegments, List.filter_cons, ne_eq, ht, not_false_eq_true,
        decide_True, if_true, List.map_cons, htr, hrest]

/-- C3: take two services with the same topic stem and the same retained
serial numbers, over two clients related by `R`, a relation kept by every
status and battery fetch, under which the two clients answer alike for every
serial number other than `sn0`. Then in one round of the poll loop the messages
published for the serial numbers other than `sn0` are the same in both runs, in
the same order, whatever the fetches for `sn0` answer; the events of a round are
those of the serial numbers taken one by one, followed by the wait; the round
leaves the service, and so the retained serial numbers, as they were; and over
any number of rounds the status of `sn0` is fetched once in every round for each
time it stands in the list. -/
theorem poll_isolation {σ₁ σ₂ : Type} (s₁ : Service σ₁ S B) (s₂ : Service σ₂ S B)
    (m : Marshal S B) (sn0 : String) (R : σ₁ → σ₂ → Prop) (w₁ : σ₁) (w₂ : σ₂)
    (hstem : s₁.options.TopicPrefix = s₂.options.TopicPrefix)
    (hlist : s₁.serialNumbers = s₂.serialNumbers)
    (hstatus : ∀ t a b, R a b →
      R (s₁.options.GrowattClient.GetNoahStatus t a).2
        (s₂.options.GrowattClient.GetNoahStatus t b).2 ∧
      (t ≠ sn0 → (s₁.options.GrowattClient.GetNoahStatus t a).1
        = (s₂.options.GrowattClient.GetNoahStatus t b).1))
    (hbattery : ∀ t a b, R a b →
      R (s₁.options.GrowattClient.GetBatteryData t a).2
        (s₂.options.GrowattClient.GetBatteryData t b).2 ∧
      (t ≠ sn0 → (s₁.options.GrowattClient.GetBatteryData t a).1
        = (s₂.options.GrowattClient.GetBatteryData t b).1))
    (h0 : R w₁ w₂) :
    messagesExcept sn0 (s₁.pollSegments m s₁.serialNumbers w₁)
      = messagesExcept sn0 (s₂.pollSegments m s₂.serialNumbers w₂) ∧
    (s₁.pollCycle m w₁).trace
      = ((s₁.pollSegments m s₁.serialNumbers w₁).map Prod.snd).flatten
          ++ [Event.After s₁.options.PollingInterval] ∧
    (s₂.pollCycle m w₂).trace
      = ((s₂.pollSegments m s₂.serialNumbers w₂).map Prod.snd).flatten
          ++ [Event.After s₂.options.PollingInterval] ∧
    (s₁.pollCycle m w₁).val.serialNumbers = s₁.serialNumbers ∧
    (s₂.pollCycle m w₂).val.serialNumbers = s₂.serialNumbers ∧
    (∀ cycles : Nat,
      statusFetches sn0 (s₁.pollLoop m cycles w₁).trace = cycles * s₁.serialNumbers.count sn0 ∧
      statusFetches sn0 (s₂.pollLoop m cycles w₂).trace
        = cycles * s₂.serialNumbers.count sn0) := by
  refine ⟨?_, ?_, ?_, rfl, rfl, ?_⟩
  · rw [hlist]
    exact messagesExcept_segments s₁ s₂ m sn0 R hstem hstatus hbattery s₂.serialNumbers w₁ w₂ h0
  · simp only [Service.pollCycle, pollDevices_segments]
  · simp only [Service.pollCycle, pollDevices_segments]
  · intro cycles
    exact ⟨statusFetches_pollLoop s₁ m sn0 cycles w₁, statusFetches_pollLoop s₂ m sn0 cycles w₂⟩

theorem poll_isolation_witness :
    messagesExcept "S1" ((Outage.service []).pollSegments Scenario.marshal ["S1", "S2"] ())
      = [("S2", [Event.Publish "noah/S2" 0 false "status of S2",
                 Event.Publish "noah/S2/BAT0" 0 false "bat0 of S2",
                 Event.Publish "noah/S2/BAT1" 0 false "bat1 of S2"])] ∧
    messagesExcept "S1" ((Outage.service []).pollSegments Scenario.marshal ["S1", "S2"] ())
      = messagesExcept "S1" (Flaky.service.pollSegments Scenario.marshal ["S1", "S2"] 0) ∧
    statusFetches "S1" (Flaky.service.pollLoop Scenario.marshal 2 0).trace = 2 :=
  have h := poll_isolation (Outage.service []) Flaky.service Scenario.marshal "S1"
    (fun _ _ => True) () 0 rfl rfl
    (fun t _ b _ => ⟨trivial, fun ht => by
      simp [Outage.service, Outage.options, Outage.client, Flaky.service, Flaky.client, ht]⟩)
    (fun _ _ _ _ => ⟨trivial, fun _ => rfl⟩)
    trivial
  ⟨by decide, h.1, (h.2.2.2.2.2 2).2⟩

theorem topics_pollBatteries_all (s : Service σ S B) (m : Marshal S B) (serialNumber : String)
    (hmb : ∀ bat, ∃ b, m.battery bat = Except.ok b) :
    ∀ (bats : List B) (i : Nat),
      topics (s.pollBatteries m serialNumber bats (i : Int))
        = (List.range' i bats.length).map
            (fun k : Nat => s.stateTopicBattery serialNumber (k : Int)) := by
  intro bats
  induction bats with
  | nil => intro i; simp [Service.pollBatteries, topics]
  | cons bat rest ih =>
    intro i
    have hc : (i : Int) + 1 = ((i + 1 : Nat) : Int) := by push_cast; rfl
    have ih' := ih (i + 1)
    rw [← hc] at ih'
    obtain ⟨b, hb⟩ := hmb bat
    rw [Service.pollBatteries]
    simp only [hb, topics_append, ih']
    simp [topics, Event.topic?, List.range'_succ]

theorem topics_pollDevice_all (s : Service σ S B) (m : Marshal S B) (serialNumber : String)
    (w : σ) (hms : ∀ data, ∃ b, m.status data = Except.ok b)
    (hmb : ∀ bat, ∃ b, m.battery bat = Except.ok b)
    (data : S) (hstatus : (s.options.GrowattClient.GetNoahStatus serialNumber w).1 = Except.ok data)
    (answer : growatt.BatteryInfo B)
    (hbattery : (s.options.GrowattClient.GetBatteryData serialNumber
      (s.options.GrowattClient.GetNoahStatus serialNumber w).2).1 = Except.ok answer) :
    topics (s.pollDevice m serialNumber w).trace
      = [s.deviceStateTopic serialNumber]
        ++ (List.range answer.Obj.Batter.length).map
            (fun i : Nat => s.stateTopicBattery serialNumber (i : Int)) := by
  obtain ⟨b, hb⟩ := hms data
  have h1 : topics (s.pollStatus m serialNumber w).trace = [s.deviceStateTopic serialNumber] := by
    simp [Service.pollStatus, hstatus, hb, topics, Event.topic?]
  have hp := topics_pollBatteries_all s m serialNumber hmb answer.Obj.Batter 0
  rw [show ((0 : Nat) : Int) = 0 from rfl, ← List.range_eq_range'] at hp
  have h2 : topics (s.pollBatteryData m serialNumber
      (s.options.GrowattClient.GetNoahStatus serialNumber w).2).trace
      = (List.range answer.Obj.Batter.length).map
          (fun i : Nat => s.stateTopicBattery serialNumber (i : Int)) := by
    simp only [Service.pollBatteryData, hbattery, topics_append, hp]
    simp [topics, Event.topic?]
  simp only [Service.pollDevice, topics_append, pollStatus_gw, h1, h2]

theorem fireAndForget_pollBatteries (s : Service σ S B) (m : Marshal S B) (serialNumber : String) :
    ∀ (bats : List B) (i : Int),
      (s.pollBatteries m serialNumber bats i).all Event.fireAndForget = true := by
  intro bats
  induction bats with
  | nil => intro i; simp [Service.pollBatteries]
  | cons bat rest ih =>
    intro i
    rw [Service.pollBatteries]
    cases hb : m.battery bat with
    | error err => simpa [Event.fireAndForget] using ih (i + 1)
    | ok b => simpa [Event.fireAndForget] using ih (i + 1)

theorem fireAndForget_pollDevice (s : Service σ S B) (m : Marshal S B) (serialNumber : String)
    (w : σ) : (s.pollDevice m serialNumber w).trace.all Event.fireAndForget = true := by
  have h1 : (s.pollStatus m serialNumber w).trace.all Event.fireAndForget = true := by
    cases h : (s.options.GrowattClient.GetNoahStatus serialNumber w).1 with
    | error err => simp [Service.pollStatus, h, Event.fireAndForget]
    | ok data =>
      cases hm : m.status data <;> simp [Service.pollStatus, h, hm, Event.fireAndForget]
  have h2 : ∀ w', (s.pollBatteryData m serialNumber w').trace.all Event.fireAndForget = true := by
    intro w'
    cases h : (s.options.GrowattClient.GetBatteryData serialNumber w').1 with
    | error err => simp [Service.pollBatteryData, h, Event.fireAndForget]
    | ok data =>
      have hb := fireAndForget_pollBatteries s m serialNumber data.Obj.Batter 0
      simp only [Service.pollBatteryData, h, List.all_append, hb]
      simp [Event.fireAndForget]
  simp only [Service.pollDevice, List.all_append, h1, h2, Bool.and_self]

theorem fireAndForget_pollDevices (s : Service σ S B) (m : Marshal S B) :
    ∀ (serialNumbers : List String) (w : σ),
      (s.pollDevices m serialNumbers w).trace.all Event.fireAndForget = true := by
  intro serialNumbers
  induction serialNumbers with
  | nil => intro w; simp [Service.pollDevices]
  | cons sn rest ih =>
    intro w
    simp only [Service.pollDevices, List.all_append, fireAndForget_pollDevice, ih, Bool.and_self]

theorem topics_pollDevices_all (s : Service σ S B) (m : Marshal S B)
    (hstatus : ∀ serialNumber w, ∃ data,
      (s.options.GrowattClient.GetNoahStatus serialNumber w).1 = Except.ok data)
    (hbattery : ∀ serialNumber w, ∃ answer,
      (s.options.GrowattClient.GetBatteryData serialNumber w).1 = Except.ok answer)
    (hms : ∀ data, ∃ b, m.status data = Except.ok b)
    (hmb : ∀ bat, ∃ b, m.battery bat = Except.ok b) :
    ∀ (serialNumbers : List String) (w : σ),
      topics (s.pollDevices m serialNumbers w).trace = s.cycleTopics serialNumbers w := by
  intro serialNumbers
  induction serialNumbers with
  | nil => intro w; simp [Service.pollDevices, Service.cycleTopics, topics]
  | cons sn rest ih =>
    intro w
    obtain ⟨data, hd⟩ := hstatus sn w
    obtain ⟨answer, ha⟩ := hbattery sn (s.options.GrowattClient.GetNoahStatus sn w).2
    have h1 := topics_pollDevice_all s m sn w hms hmb data hd answer ha
    simp only [Service.pollDevices, Service.cycleTopics, topics_append, h1, ih, pollDevice_gw, ha]

/-- C4: when every status fetch, every battery fetch and every marshalling
succeeds, the topics published in one round of the poll loop are, for the
retained serial numbers in order, the device topic followed by the battery
topics of the indices `0` to `k - 1`, `k` the number of entries of the battery
answer for that serial number; and every publish of a round, whatever fails,
has QoS 0 and is not retained. -/
theorem poll_topics (s : Service σ S B) (m : Marshal S B) (w : σ)
    (hstatus : ∀ serialNumber w, ∃ data,
      (s.options.GrowattClient.GetNoahStatus serialNumber w).1 = Except.ok data)
    (hbattery : ∀ serialNumber w, ∃ answer,
      (s.options.GrowattClient.GetBatteryData serialNumber w).1 = Except.ok answer)
    (hms : ∀ data, ∃ b, m.status data = Except.ok b)
    (hmb : ∀ bat, ∃ b, m.battery bat = Except.ok b) :
    topics (s.pollCycle m w).trace = s.cycleTopics s.serialNumbers w ∧
    (∀ topic qos retained payload,
      Event.Publish topic qos retained payload ∈ (s.pollCycle m w).trace →
      qos = 0 ∧ retained = false) := by
  constructor
  · simp only [Service.pollCycle, topics_append,
      topics_pollDevices_all s m hstatus hbattery hms hmb]
    simp [topics, Event.topic?]
  · intro topic qos retained payload hmem
    have hall : (s.pollCycle m w).trace.all Event.fireAndForget = true := by
      simp only [Service.pollCycle, List.all_append, fireAndForget_pollDevices]
      simp [Event.fireAndForget]
    have := List.all_eq_true.mp hall _ hmem
    simpa [Event.fireAndForget] using this

theorem poll_topics_witness :
    topics (Scenario.started.pollCycle Scenario.marshal ()).trace
      = ["noah/S1", "noah/S1/BAT0", "noah/S1/BAT1"] ∧
    topics (Scenario.started.pollCycle Scenario.marshal ()).trace
      = Scenario.started.cycleTopics ["S1"] () :=
  ⟨by decide,
   (poll_topics Scenario.started Scenario.marshal ()
      (fun _ _ => ⟨"status", rfl⟩) (fun _ _ => ⟨⟨⟨["bat0", "bat1"]⟩⟩, rfl⟩)
      (fun data => ⟨data, rfl⟩) (fun bat => ⟨bat, rfl⟩)).1⟩

/-! ## A failed status fetch -/

theorem pollDevices_rounds (s : Service σ S B) (m : Marshal S B) :
    ∀ (serialNumbers : List String) (w : σ),
      (s.pollDevices m serialNumbers w).trace
        = ((s.pollRounds m serialNumbers w).map (fun r => r.2.2)).flatten := by
  intro serialNumbers
  induction serialNumbers with
  | nil => intro w; simp [Service.pollDevices, Service.pollRounds]
  | cons sn rest ih =>
    intro w
    simp [Service.pollDevices, Service.pollRounds, ih]

/-- Every round of the loop over the serial numbers is the body of the loop
run on its serial number from its own starting state. -/
theorem pollRounds_mem (s : Service σ S B) (m : Marshal S B) :
    ∀ (serialNumbers : List String) (w : σ) (r : String × σ × List Event),
      r ∈ s.pollRounds m serialNumbers w → r.2.2 = (s.pollDevice m r.1 r.2.1).trace := by
  intro serialNumbers
  induction serialNumbers with
  | nil => intro w r hr; simp [Service.pollRounds] at hr
  | cons sn rest ih =>
    intro w r hr
    simp only [Service.pollRounds, List.mem_cons] at hr
    rcases hr with hr | hr
    · subst hr; rfl
    · exact ih _ r hr

theorem publishes_pollBatteryData_ok (s : Service σ S B) (m : Marshal S B)
    (serialNumber : String) (w : σ) (answer : growatt.BatteryInfo B)
    (hans : (s.options.GrowattClient.GetBatteryData serialNumber w).1 = Except.ok answer) :
    publishes (s.pollBatteryData m serialNumber w).trace
      = answer.Obj.Batter.enum.filterMap (fun p =>
          match m.battery p.2 with
          | Except.ok b =>
            some (Event.Publish (s.stateTopicBattery serialNumber (p.1 : Int)) 0 false b)
          | Except.error _ => none) := by
  have hp := publishes_pollBatteries s m serialNumber answer.Obj.Batter 0
  rw [show ((0 : Nat) : Int) = 0 from rfl] at hp
  simp only [Service.pollBatteryData, hans, List.enum]
  rw [← hp]
  simp [publishes, Event.isPublish]

/-- What one round does when its status fetch fails. -/
theorem pollDevice_status_failed (s : Service σ S B) (m : Marshal S B) (serialNumber : String)
    (w : σ) (err : GoError)
    (h : (s.options.GrowattClient.GetNoahStatus serialNumber w).1 = Except.error err) :
    (∃ rest, (s.pollDevice m serialNumber w).trace
      = [Event.call (Call.GetNoahStatus serialNumber),
         Event.log Level.Error "could not get device data"
           [Attr.String "error" err.Error, Attr.String "device" serialNumber],
         Event.call (Call.GetBatteryData serialNumber)] ++ rest) ∧
    statusFetches serialNumber (s.pollDevice m serialNumber w).trace = 1 ∧
    s.deviceStateTopic serialNumber ∉ topics (s.pollDevice m serialNumber w).trace ∧
    (∀ answer,
      (s.options.GrowattClient.GetBatteryData serialNumber
        (s.options.GrowattClient.GetNoahStatus serialNumber w).2).1 = Except.ok answer →
      publishes (s.pollDevice m serialNumber w).trace
        = answer.Obj.Batter.enum.filterMap (fun p =>
            match m.battery p.2 with
            | Except.ok b =>
              some (Event.Publish (s.stateTopicBattery serialNumber (p.1 : Int)) 0 false b)
            | Except.error _ => none)) ∧
    (∀ failure,
      (s.options.GrowattClient.GetBatteryData serialNumber
        (s.options.GrowattClient.GetNoahStatus serialNumber w).2).1 = Except.error failure →
      publishes (s.pollDevice m serialNumber w).trace = []) := by
  have ht : (s.pollDevice m serialNumber w).trace
      = [Event.call (Call.GetNoahStatus serialNumber),
         Event.log Level.Error "could not get device data"
           [Attr.String "error" err.Error, Attr.String "device" serialNumber]]
        ++ (s.pollBatteryData m serialNumber
              (s.options.GrowattClient.GetNoahStatus serialNumber w).2).trace := by
    have hg := pollStatus_gw s m serialNumber w
    simp only [Service.pollDevice, hg]
    simp only [Service.pollStatus, h]
  refine ⟨?_, ?_, ?_, ?_, ?_⟩
  · rw [ht]
    cases hb : (s.options.GrowattClient.GetBatteryData serialNumber
        (s.options.GrowattClient.GetNoahStatus serialNumber w).2).1 with
    | error failure =>
      exact ⟨[Event.log Level.Error "could not get battery data"
        [Attr.String "error" failure.Error, Attr.String "device" serialNumber]],
        by simp [Service.pollBatteryData, hb]⟩
    | ok answer =>
      exact ⟨s.pollBatteries m serialNumber answer.Obj.Batter 0,
        by simp [Service.pollBatteryData, hb]⟩
  · rw [statusFetches_pollDevice]; simp
  · rw [ht, topics_append]
    obtain ⟨idx, _, heq⟩ := topics_pollBatteryData s m serialNumber
      (s.options.GrowattClient.GetNoahStatus serialNumber w).2
    rw [heq]
    intro hmem
    simp only [topics, Event.topic?, List.filterMap_cons, List.filterMap_nil, List.nil_append,
      List.mem_map] at hmem
    obtain ⟨k, _, hk⟩ := hmem
    exact stateTopicBattery_ne_device s serialNumber k hk
  · intro answer hans
    rw [ht, publishes_append, publishes_pollBatteryData_ok s m serialNumber _ answer hans]
    simp [publishes, Event.isPublish]
  · intro failure hfail
    rw [ht, publishes_append]
    simp [Service.pollBatteryData, hfail, publishes, Event.isPublish]

/-- C7: in a cycle of the poll loop the status of a serial number is fetched
once for each time it stands in the retained list, never again; and every
round of the cycle whose status fetch fails logs the error and goes on with
the battery fetch of the same serial number: it publishes nothing to the device
topic, and its publishes are the entries of the battery answer whose
marshalling succeeds, each to the battery topic of its position (none when the
battery fetch fails too). -/
theorem poll_status_failure (s : Service σ S B) (m : Marshal S B) (w : σ) :
    (s.pollCycle m w).trace
      = ((s.pollRounds m s.serialNumbers w).map (fun r => r.2.2)).flatten
          ++ [Event.After s.options.PollingInterval] ∧
    (∀ serialNumber,
      statusFetches serialNumber (s.pollCycle m w).trace = s.serialNumbers.count serialNumber) ∧
    (∀ r ∈ s.pollRounds m s.serialNumbers w, ∀ err,
      (s.options.GrowattClient.GetNoahStatus r.1 r.2.1).1 = Except.error err →
      (∃ rest, r.2.2
        = [Event.call (Call.GetNoahStatus r.1),
           Event.log Level.Error "could not get device data"
             [Attr.String "error" err.Error, Attr.String "device" r.1],
           Event.call (Call.GetBatteryData r.1)] ++ rest) ∧
      statusFetches r.1 r.2.2 = 1 ∧
      s.deviceStateTopic r.1 ∉ topics r.2.2 ∧
      (∀ answer,
        (s.options.GrowattClient.GetBatteryData r.1
          (s.options.GrowattClient.GetNoahStatus r.1 r.2.1).2).1 = Except.ok answer →
        publishes r.2.2
          = answer.Obj.Batter.enum.filterMap (fun p =>
              match m.battery p.2 with
              | Except.ok b =>
                some (Event.Publish (s.stateTopicBattery r.1 (p.1 : Int)) 0 false b)
              | Except.error _ => none)) ∧
      (∀ failure,
        (s.options.GrowattClient.GetBatteryData r.1
          (s.options.GrowattClient.GetNoahStatus r.1 r.2.1).2).1 = Except.error failure →
        publishes r.2.2 = [])) := by
  refine ⟨?_, ?_, ?_⟩
  · simp only [Service.pollCycle, pollDevices_rounds]
  · intro serialNumber
    simp only [Service.pollCycle, statusFetches_append, statusFetches_pollDevices]
    simp [statusFetches, Event.isStatusFetch]
  · intro r hr err herr
    rw [pollRounds_mem s m _ _ r hr]
    exact pollDevice_status_failed s m r.1 r.2.1 err herr

theorem poll_status_failure_witness :
    statusFetches "S1" (Flaky.service.pollCycle Scenario.marshal 0).trace = 1 ∧
    (∃ rest, (Flaky.service.pollDevice Scenario.marshal "S1" 0).trace
      = [Event.call (Call.GetNoahStatus "S1"),
         Event.log Level.Error "could not get device data"
           [Attr.String "error" "timeout", Attr.String "device" "S1"],
         Event.call (Call.GetBatteryData "S1")] ++ rest) ∧
    publishes (Flaky.service.pollDevice Scenario.marshal "S1" 0).trace
      = [Event.Publish "noah/S1/BAT0" 0 false "bat0 of S1",
         Event.Publish "noah/S1/BAT1" 0 false "bat1 of S1"] :=
  have h := poll_status_failure Flaky.service Scenario.marshal 0
  have hr := h.2.2 ("S1", 0, (Flaky.service.pollDevice Scenario.marshal "S1" 0).trace)
    (List.mem_cons_self _ _) ⟨"timeout"⟩ rfl
  ⟨h.2.1 "S1", hr.1, hr.2.2.2.1 ⟨⟨["bat0 of S1", "bat1 of S1"]⟩⟩ rfl⟩

/-- A failed status fetch does not keep the batteries of the serial number from
being published in the same cycle; and for a serial number listed twice, the
status is fetched a second time in the cycle and the device topic published
after the first fetch failed. -/
theorem poll_status_failure_counterexample :
    ((Outage.service [Call.GetNoahStatus "S1"]).options.GrowattClient.GetNoahStatus "S1" ()).1
      = Except.error ⟨"timeout"⟩ ∧
    topics ((Outage.service [Call.GetNoahStatus "S1"]).pollCycle Scenario.marshal ()).trace
      = ["noah/S1/BAT0", "noah/S1/BAT1", "noah/S2", "noah/S2/BAT0", "noah/S2/BAT1"] ∧
    (Outage.service [Call.GetNoahStatus "S1"]).stateTopicBattery "S1" 0 = "noah/S1/BAT0" ∧
    (Outage.service [Call.GetNoahStatus "S1"]).stateTopicBattery "S1" 1 = "noah/S1/BAT1" ∧
    (Twin.service.enumerateDevices 0).out = Outcome.ret Twin.started ∧
    (Twin.started.options.GrowattClient.GetNoahStatus "S1" 0).1 = Except.error ⟨"timeout"⟩ ∧
    statusFetches "S1" (Twin.started.pollCycle Scenario.marshal 0).trace = 2 ∧
    topics (Twin.started.pollCycle Scenario.marshal 0).trace
      = ["noah/S1/BAT0", "noah/S1/BAT1", "noah/S1", "noah/S1/BAT0", "noah/S1/BAT1"] ∧
    Twin.started.deviceStateTopic "S1" = "noah/S1" :=
  ⟨rfl, by decide, by decide, by decide, rfl, rfl, by decide, by decide, by decide⟩

/-! ## Distinct topics -/

theorem pollSegments_fst (s : Service σ S B) (m : Marshal S B) :
    ∀ (serialNumbers : List String) (w : σ) (p : String × List Event),
      p ∈ s.pollSegments m serialNumbers w → p.1 ∈ serialNumbers := by
  intro serialNumbers
  induction serialNumbers with
  | nil => intro w p hp; simp [Service.pollSegments] at hp
  | cons sn rest ih =>
    intro w p hp
    simp only [Service.pollSegments, List.mem_cons] at hp
    rcases hp with hp | hp
    · subst hp; exact List.mem_cons_self _ _
    · exact List.mem_cons_of_mem _ (ih _ p hp)

/-- The topics published in a cycle for a serial number that is not listed
twice are pairwise distinct. -/
theorem roundTopics_nodup (s : Service σ S B) (m : Marshal S B) (serialNumber : String) :
    ∀ (serialNumbers : List String) (w : σ), serialNumbers.count serialNumber ≤ 1 →
      (roundTopics serialNumber (s.pollSegments m serialNumbers w)).Nodup := by
  intro serialNumbers
  induction serialNumbers with
  | nil => intro w _; simp [Service.pollSegments, roundTopics]
  | cons sn rest ih =>
    intro w hcount
    by_cases hsn : sn = serialNumber
    · subst hsn
      have hnot : sn ∉ rest := by
        intro hmem
        have := List.count_pos_iff.mpr hmem
        simp only [List.count_cons_self] at hcount
        omega
      have hnil : (s.pollSegments m rest (s.pollDevice m sn w).gw).filter
          (fun p => decide (p.1 = sn)) = [] := by
        rw [List.filter_eq_nil_iff]
        intro p hp
        have := pollSegments_fst s m rest _ p hp
        simp only [decide_eq_true_eq]
        intro hc
        exact hnot (hc ▸ this)
      simp only [roundTopics, Service.pollSegments, List.filter_cons, decide_True, if_true, hnil,
        List.flatMap_cons, List.flatMap_nil, List.append_nil]
      exact topics_pollDevice_nodup s m sn w
    · have hc : rest.count serialNumber ≤ 1 := by
        rw [List.count_cons_of_ne (Ne.symm hsn)] at hcount
        exact hcount
      have := ih (s.pollDevice m sn w).gw hc
      unfold roundTopics at this ⊢
      simpa [Service.pollSegments, List.filter_cons, hsn] using this

theorem builtDevices_cons (s : Service σ S B) (sn : String) (rest : List String) (w : σ) :
    s.builtDevices (sn :: rest) w
      = match (s.options.GrowattClient.GetNoahInfo sn w).1 with
        | Except.ok data =>
          s.deviceInfo sn data :: s.builtDevices rest (s.options.GrowattClient.GetNoahInfo sn w).2
        | Except.error _ => s.builtDevices rest (s.options.GrowattClient.GetNoahInfo sn w).2 := by
  unfold Service.builtDevices
  cases h : (s.options.GrowattClient.GetNoahInfo sn w).1 <;> simp [answers, h]

theorem builtDevices_serial (s : Service σ S B) :
    ∀ (serialNumbers : List String) (w : σ) (d : homeassistant.DeviceInfo),
      d ∈ s.builtDevices serialNumbers w → d.SerialNumber ∈ serialNumbers := by
  intro serialNumbers
  induction serialNumbers with
  | nil => intro w d hd; simp [Service.builtDevices, answers] at hd
  | cons sn rest ih =>
    intro w d hd
    rw [builtDevices_cons] at hd
    cases h : (s.options.GrowattClient.GetNoahInfo sn w).1 with
    | error err =>
      simp only [h] at hd
      exact List.mem_cons_of_mem _ (ih _ d hd)
    | ok data =>
      simp only [h, List.mem_cons] at hd
      rcases hd with hd | hd
      · subst hd; exact List.mem_cons_self _ _
      · exact List.mem_cons_of_mem _ (ih _ d hd)

/-- The topics an inventory gives for a serial number that is not listed twice
are pairwise distinct. -/
theorem inventoryTopics_nodup (s : Service σ S B) (serialNumber : String) :
    ∀ (serialNumbers : List String) (w : σ), serialNumbers.count serialNumber ≤ 1 →
      (inventoryTopics serialNumber (s.builtDevices serialNumbers w)).Nodup := by
  intro serialNumbers
  induction serialNumbers with
  | nil => intro w _; simp [Service.builtDevices, answers, inventoryTopics]
  | cons sn rest ih =>
    intro w hcount
    rw [builtDevices_cons]
    by_cases hsn : sn = serialNumber
    · subst hsn
      have hnot : sn ∉ rest := by
        intro hmem
        have := List.count_pos_iff.mpr hmem
        simp only [List.count_cons_self] at hcount
        omega
      have hnil : ∀ w', (s.builtDevices rest w').filter
          (fun d => decide (d.SerialNumber = sn)) = [] := by
        intro w'
        rw [List.filter_eq_nil_iff]
        intro d hd
        have := builtDevices_serial s rest w' d hd
        simp only [decide_eq_true_eq]
        intro hc
        exact hnot (hc ▸ this)
      cases h : (s.options.GrowattClient.GetNoahInfo sn w).1 with
      | error err => simp [inventoryTopics, hnil]
      | ok data =>
        have hd : (s.deviceInfo sn data).SerialNumber = sn := rfl
        simp only [inventoryTopics, List.filter_cons, hd, decide_True, if_true, hnil,
          List.flatMap_cons, List.flatMap_nil, List.append_nil]
        exact deviceInfo_topics_nodup s sn data
    · have hc : rest.count serialNumber ≤ 1 := by
        rw [List.count_cons_of_ne (Ne.symm hsn)] at hcount
        exact hcount
      have := ih (s.options.GrowattClient.GetNoahInfo sn w).2 hc
      cases h : (s.options.GrowattClient.GetNoahInfo sn w).1 with
      | error err => exact this
      | ok data =>
        have hd : (s.deviceInfo sn data).SerialNumber = sn := rfl
        unfold inventoryTopics at this ⊢
        simpa [List.filter_cons, hd, hsn] using this

/-- C10: two battery topics of one device are equal only for equal indices and
a battery topic never equals the device topic; so the device topic and the
battery topics of one inventory record are pairwise distinct, and so are the
topics of one round of the poll loop; and for a serial number that stands at
most once in the list, all topics the inventory gives for it, and all topics
published for it in a cycle, are pairwise distinct. -/
theorem topics_distinct (s : Service σ S B) (serialNumber : String) :
    (∀ i j : Nat, s.stateTopicBattery serialNumber (i : Int)
        = s.stateTopicBattery serialNumber (j : Int) → i = j) ∧
    (∀ i : Nat, s.stateTopicBattery serialNumber (i : Int) ≠ s.deviceStateTopic serialNumber) ∧
    (∀ data : growatt.NoahInfo,
      ((s.deviceInfo serialNumber data).StateTopic
        :: (s.deviceInfo serialNumber data).Batteries.map (fun b => b.StateTopic)).Nodup) ∧
    (∀ (m : Marshal S B) (w : σ), (topics (s.pollDevice m serialNumber w).trace).Nodup) ∧
    (∀ (serialNumbers : List String) (w : σ), serialNumbers.count serialNumber ≤ 1 →
      (inventoryTopics serialNumber (s.builtDevices serialNumbers w)).Nodup) ∧
    (∀ (m : Marshal S B) (w : σ), s.serialNumbers.count serialNumber ≤ 1 →
      (roundTopics serialNumber (s.pollSegments m s.serialNumbers w)).Nodup ∧
      (s.pollCycle m w).trace
        = ((s.pollSegments m s.serialNumbers w).map Prod.snd).flatten
            ++ [Event.After s.options.PollingInterval]) :=
  ⟨stateTopicBattery_injective s serialNumber, stateTopicBattery_ne_device s serialNumber,
    deviceInfo_topics_nodup s serialNumber, fun m w => topics_pollDevice_nodup s m serialNumber w,
    inventoryTopics_nodup s serialNumber,
    fun m w h => ⟨roundTopics_nodup s m serialNumber s.serialNumbers w h, by
      simp only [Service.pollCycle, pollDevices_segments]⟩⟩

theorem topics_distinct_witness :
    roundTopics "S1" (Flaky.service.pollSegments Scenario.marshal ["S1", "S2"] 1)
      = ["noah/S1", "noah/S1/BAT0", "noah/S1/BAT1"] ∧
    (roundTopics "S1" (Flaky.service.pollSegments Scenario.marshal ["S1", "S2"] 1)).Nodup ∧
    inventoryTopics "S1" (Flaky.service.builtDevices ["S1", "S2"] 1)
      = ["noah/S1", "noah/S1/BAT0", "noah/S1/BAT1"] ∧
    (inventoryTopics "S1" (Flaky.service.builtDevices ["S1", "S2"] 1)).Nodup :=
  have h := topics_distinct Flaky.service "S1"
  ⟨by decide, (h.2.2.2.2.2 Scenario.marshal 1 (by decide)).1, by decide,
    h.2.2.2.2.1 ["S1", "S2"] 1 (by decide)⟩

/-- For a serial number listed twice, which two plants resolving to the same
device give, the topics published for it in one cycle and the topics the
inventory gives for it repeat. -/
theorem topics_distinct_counterexample :
    (Twin.service.enumerateDevices 0).out = Outcome.ret Twin.started ∧
    roundTopics "S1" (Twin.started.pollSegments Scenario.marshal Twin.started.serialNumbers 1)
      = ["noah/S1", "noah/S1/BAT0", "noah/S1/BAT1", "noah/S1", "noah/S1/BAT0", "noah/S1/BAT1"] ∧
    topics (Twin.started.pollCycle Scenario.marshal 1).trace
      = ["noah/S1", "noah/S1/BAT0", "noah/S1/BAT1", "noah/S1", "noah/S1/BAT0", "noah/S1/BAT1"] ∧
    decide (topics (Twin.started.pollCycle Scenario.marshal 1).trace).Nodup = false ∧
    handoffs (Twin.service.enumerateDevices 0).trace
      = [[{ SerialNumber := "S1", Alias := "Noah", StateTopic := "noah/S1",
            Batteries := [{ Alias := "BAT0", StateTopic := "noah/S1/BAT0" },
                          { Alias := "BAT1", StateTopic := "noah/S1/BAT1" }],
            Model := "Noah 2000", Version := "1.0" },
          { SerialNumber := "S1", Alias := "Noah", StateTopic := "noah/S1",
            Batteries := [{ Alias := "BAT0", StateTopic := "noah/S1/BAT0" },
                          { Alias := "BAT1", StateTopic := "noah/S1/BAT1" }],
            Model := "Noah 2000", Version := "1.0" }]] ∧
    decide (inventoryTopics "S1" (Twin.service.builtDevices ["S1", "S1"] 0)).Nodup = false :=
  ⟨rfl, by decide, by decide, by decide, by decide, by decide⟩

/-! ## The properties on the concrete accounts -/

theorem topic_layout_witness :
    Scenario.service.deviceStateTopic "S1" = "noah/S1" ∧
    Scenario.service.stateTopicBattery "S1" 12 = "noah/S1/BAT12" ∧
    Scenario.service.stateTopicBattery "S1" ((12 : Nat) : Int)
      = Scenario.service.deviceStateTopic "S1" ++ "/BAT" ++ decimal 12 ∧
    (decimal 12).data.head? ≠ some '0' :=
  have h := topic_layout Scenario.service "S1" 12
  ⟨by decide, by decide, h.2.1, h.2.2.2 (by decide)⟩

theorem enumerateDevices_inventory_witness :
    ((NewService (Outage.options [])).fetchNoahSerialNumbers ()).out
      = Outcome.ret ["S1", "S2"] ∧
    ((NewService (Outage.options [])).enumerateDevices ()).out
      = Outcome.ret (Outage.service []) ∧
    handoffs ((NewService (Outage.options [])).enumerateDevices ()).trace
      = [[{ SerialNumber := "S1", Alias := "Noah", StateTopic := "noah/S1",
            Batteries := [{ Alias := "BAT0", StateTopic := "noah/S1/BAT0" },
                          { Alias := "BAT1", StateTopic := "noah/S1/BAT1" }],
            Model := "Noah 2000", Version := "1.0" }]] :=
  ⟨rfl, (enumerateDevices_inventory (NewService (Outage.options [])) () ["S1", "S2"] rfl).2.1,
    by decide⟩

theorem battery_records_match_witness :
    (Scenario.service.deviceInfo "S1" ⟨⟨⟨["B1", "B2"], "Noah", "Noah 2000", "1.0"⟩⟩⟩).Batteries
      = [{ Alias := "BAT0", StateTopic := "noah/S1/BAT0" },
         { Alias := "BAT1", StateTopic := "noah/S1/BAT1" }] ∧
    (Scenario.service.deviceInfo "S1" ⟨⟨⟨["B1", "B2"], "Noah", "Noah 2000", "1.0"⟩⟩⟩).Batteries[1]?
      = some { Alias := "BAT" ++ decimal 1,
               StateTopic := Scenario.service.stateTopicBattery "S1" ((1 : Nat) : Int) } ∧
    publishes (Scenario.service.pollBatteryData Scenario.marshal "S1" ()).trace
      = [Event.Publish "noah/S1/BAT0" 0 false "bat0", Event.Publish "noah/S1/BAT1" 0 false "bat1"] :=
  ⟨by decide,
   (battery_records_match Scenario.service Scenario.marshal "S1"
      ⟨⟨⟨["B1", "B2"], "Noah", "Noah 2000", "1.0"⟩⟩⟩).2.2.1 1 (by decide),
   by decide⟩

theorem startup_fatal_witness :
    ((NewService (Outage.options [Call.Login])).run Scenario.marshal 3 ()).out
      = Outcome.panic ⟨"timeout"⟩ ∧
    ((NewService (Outage.options [Call.Login])).run Scenario.marshal 3 ()).trace
      = [Event.call Call.Login,
         Event.log Level.Error "could not login to growatt account"
           [Attr.String "error" "timeout"]] ∧
    ((NewService (Outage.options [Call.GetPlantList])).run Scenario.marshal 3 ()).out
      = Outcome.panic ⟨"timeout"⟩ ∧
    ((NewService (Outage.options [Call.GetPlantList])).run Scenario.marshal 3 ()).trace
      = [Event.call Call.Login,
         Event.log Level.Info "fetching plant list" [],
         Event.call Call.GetPlantList,
         Event.log Level.Error "could not get plant list" [Attr.String "error" "timeout"]] :=
  ⟨(startup_fatal (NewService (Outage.options [Call.Login])) Scenario.marshal 3 () ⟨"timeout"⟩
      (Or.inl ⟨(), rfl⟩)).2.1,
   by decide,
   (startup_fatal (NewService (Outage.options [Call.GetPlantList])) Scenario.marshal 3 ()
      ⟨"timeout"⟩ (Or.inr ⟨(), (), rfl, rfl⟩)).2.1,
   by decide⟩

theorem startup_no_devices_witness :
    Vacant.service.resolvedSerials [⟨"A"⟩] () = [] ∧
    (Vacant.service.run Scenario.marshal 3 ()).out = Outcome.exit 0 ∧
    (Vacant.service.run Scenario.marshal 3 ()).trace
      = [Event.call Call.Login,
         Event.log Level.Info "fetching plant list" [],
         Event.call Call.GetPlantList,
         Event.log Level.Info "fetch plant details" [Attr.String "plantId" "A"],
         Event.call (Call.GetNoahPlantInfo "A"),
         Event.log Level.Info "no noah devices found" [],
         Event.After 60000000000] :=
  ⟨by decide,
   (startup_no_devices Vacant.service Scenario.marshal 3 () () () ⟨⟨[⟨"A"⟩]⟩⟩ rfl rfl
      (by decide)).2.1,
   by decide⟩

end NoahMqtt
